import Mathlib

/-!
# Verification of the synkro sync engine

A shallow embedding, in Lean 4, of the core of the `synkro` peer-to-peer
synchronization agent (Rust sources under `src-tauri/src`), together with
theorems settling the specification claims about it.

Conventions used throughout:

* Filesystem paths are modelled by their component lists (`List String`),
  matching the component-wise behaviour of Rust's `Path::strip_prefix`,
  `Path::file_name` and `Path::join` as used by the sources.
* Byte strings are modelled as `List Nat` with each element intended `< 256`.
* Fallible effects of the environment (clipboard reads/writes, gossip
  broadcast, blob import, the external key-value store) enter the model as
  explicit parameters recording the outcome the environment produced, so each
  source function becomes a pure function of its inputs and that environment.
-/

namespace Synkro

/-! ## Filesystem watcher (`fs_watcher.rs`)

The event-kind taxonomy mirrors the `notify` crate's `EventKind` tree exactly
as it is matched in `handle_watcher`.
-/

/-- `notify::event::CreateKind`. -/
inductive CreateKind
  | any | file | folder | other
deriving DecidableEq, Repr

/-- `notify::event::RemoveKind`. -/
inductive RemoveKind
  | any | file | folder | other
deriving DecidableEq, Repr

/-- `notify::event::DataChange`. -/
inductive DataChange
  | any | content | size | other
deriving DecidableEq, Repr

/-- `notify::event::MetadataKind`. -/
inductive MetadataKind
  | any | accessTime | writeTime | permissions | ownership | extended | other
deriving DecidableEq, Repr

/-- `notify::event::AccessKind` (payloads of `Open`/`Close` are irrelevant to the
match in `handle_watcher`, which wildcards the whole `Access` arm). -/
inductive AccessKind
  | any | readKind | openKind | closeKind | other
deriving DecidableEq, Repr

/-- `notify::event::RenameMode`. -/
inductive RenameMode
  | toPath | fromPath | both | any | other
deriving DecidableEq, Repr

/-- `notify::event::ModifyKind`. -/
inductive ModifyKind
  | any
  | data (c : DataChange)
  | metadata (m : MetadataKind)
  | name (r : RenameMode)
  | other
deriving DecidableEq, Repr

/-- `notify::EventKind`. -/
inductive EventKind
  | access (a : AccessKind)
  | create (c : CreateKind)
  | modify (m : ModifyKind)
  | remove (r : RemoveKind)
  | other
deriving DecidableEq, Repr

/-- A filesystem path as its list of components; `[]` is the empty path
(`PathBuf::new()`). -/
abbrev Path := List String

/-- `FsEventType` from `fs_watcher.rs`. -/
inductive FsEventType
  | create | modify | remove | error | otherEvent
deriving DecidableEq, Repr

/-- A `notify::Event` as consumed by `handle_watcher`: its kind and its paths. -/
structure NotifyEvent where
  kind : EventKind
  paths : List Path
deriving DecidableEq, Repr

/-- `FsEventPayload` from `fs_watcher.rs`. -/
structure FsEventPayload where
  event_type : FsEventType
  path : Path
deriving DecidableEq, Repr

/-- The `match event.kind` classification inside `handle_watcher`
(`fs_watcher.rs`, lines 148-189). `pathExists` records the outcome of the
`path.exists()` probe made in the `RenameMode::Any` arm. -/
def classifyKind (pathExists : Bool) : EventKind → FsEventType
  | .create _ => .create
  | .remove _ => .remove
  | .modify k =>
    match k with
    | .data _ => .modify
    | .metadata _ => .modify
    | .name r =>
      match r with
      | .toPath => .create
      | .fromPath => .remove
      | .both => .modify
      | .any => if pathExists then .create else .remove
      | .other => .otherEvent
    | .any => .modify
    | .other => .otherEvent
  | .access _ => .otherEvent
  | .other => .otherEvent

/-- One iteration of the event-processing loop of `handle_watcher`
(`fs_watcher.rs`, lines 136-205): a watcher result is turned into the
`FsEventPayload` that is handed to `handle_fs_payload` and emitted.
`.error ()` is the `Err` arm (a watcher-internal error). -/
def handleEventResult (pathExists : Path → Bool) :
    Except Unit NotifyEvent → FsEventPayload
  | .ok ev =>
    let path := (ev.paths.head?).getD []
    { event_type := classifyKind (pathExists path) ev.kind, path := path }
  | .error _ => { event_type := .error, path := [] }

/-! ## Identity setup (`iroh_fns/setup.rs`) -/

/-- The observable state of the `secret_key` file at startup. -/
inductive SecretKeyFile
  | missing
  | present (bytes : List Nat)
deriving DecidableEq, Repr

/-- Outcome of the secret-key phase of `setup`: the key in use and, when a new
key was generated, the bytes persisted to the `secret_key` file. -/
structure KeySetupResult where
  key : List Nat
  written : Option (List Nat)
deriving DecidableEq, Repr

/-- The secret-key `match` of `setup` (`iroh_fns/setup.rs`, lines 25-51):
an existing file is loaded only if its contents convert to a `[u8; 32]`
(exactly 32 bytes), otherwise setup fails with an initialization error; a
missing file leads to generating a fresh key (`fresh` records the CSPRNG
draw) and persisting it. -/
def loadOrCreateSecretKey : SecretKeyFile → List Nat → Except String KeySetupResult
  | .present bytes, _ =>
    if bytes.length = 32 then
      .ok ⟨bytes, none⟩
    else
      .error "Secret key file has incorrect size: expected 32 bytes."
  | .missing, fresh => .ok ⟨fresh, some fresh⟩

/-! ## Identifiers and payloads -/

/-- An iroh `NodeId` (the public half of the 32-byte identity), by its bytes. -/
structure NodeId where
  bytes : List Nat
deriving DecidableEq, Repr

/-- An `iroh_gossip::proto::TopicId` (a 32-byte gossip channel identifier),
by its bytes. -/
structure TopicId where
  bytes : List Nat
deriving DecidableEq, Repr

/-- `iroh_blobs::BlobFormat`. -/
inductive BlobFormat
  | raw | hashSeq
deriving DecidableEq, Repr

/-- A `BlobTicket` by its decoded content `{node, hash, format}`; the opaque
ticket string of the external blob library is modelled by this triple (the
library's string encoding is injective and round-trips by its contract). -/
structure BlobTicketM where
  node : NodeId
  hash : Nat
  format : BlobFormat
deriving DecidableEq, Repr

/-- `ClipboardPayload` from `clipboard_monitor.rs` (the ClipboardAnnouncement). -/
structure ClipboardPayload where
  from_node_id : NodeId
  content : String
deriving DecidableEq, Repr

/-- `GossipEventPayload` from `commands/gossip_commands.rs` (the
FileAnnouncement). The `from` field is named `fromNode` (`from` is a Lean
keyword); `message_content` holds the blob ticket (see `BlobTicketM`). -/
structure GossipEventPayload where
  fromNode : NodeId
  topic : TopicId
  file_name : String
  relative_path : Path
  message_content : BlobTicketM
deriving DecidableEq, Repr

/-! ## Clipboard monitor (`clipboard_monitor.rs`) -/

/-- The clipboard-side mutable state of `ClipboardMonitor`: the system
clipboard's text and the monitor's "last observed" string (`last_content`). -/
structure ClipState where
  clipboard : String
  lastContent : String
deriving DecidableEq, Repr

/-- Result of `ClipboardMonitor::set_local_clipboard_content`: the content
passed to the clipboard `set_text` call when one was made, whether the
function returned `Ok`, and the state afterwards. -/
structure SetClipResult where
  attempted : Option String
  ok : Bool
  state : ClipState
deriving DecidableEq, Repr

/-- `ClipboardMonitor::set_local_clipboard_content` (`clipboard_monitor.rs`,
lines 50-84). `storeOk` is the outcome of the store access, `sharing` the
stored `clipboard_sharing_enabled` flag (`unwrap_or(false)` applied),
`setTextOk` the outcome of the clipboard `set_text` call. The clipboard and
`last_content` change together and only when `set_text` succeeds. -/
def setLocalClipboardContent (storeOk sharing setTextOk : Bool) (content : String)
    (st : ClipState) : SetClipResult :=
  if ¬ storeOk then ⟨none, false, st⟩
  else if ¬ sharing then ⟨none, true, st⟩
  else if setTextOk then ⟨some content, true, ⟨content, content⟩⟩
  else ⟨some content, false, st⟩

/-- Environment of one tick of the polling loop in
`ClipboardMonitor::start_monitoring` (`clipboard_monitor.rs`, lines 94-178):
the outcomes of the store access, the stored sharing flag, the shared-state
reads, the clipboard `get_text` call and the gossip broadcast. -/
structure PollEnv where
  storeOk : Bool
  sharing : Bool
  localId : Option NodeId
  senderReady : Bool
  topicReady : Bool
  readResult : Except Unit String
  broadcastOk : Bool
deriving Repr

/-- One tick of the clipboard polling loop (`clipboard_monitor.rs`, lines
94-178): returns the ClipboardAnnouncement broadcast on this tick (if any)
and the new `last_content`. -/
def pollTick (env : PollEnv) (last : String) : Option ClipboardPayload × String :=
  if ¬ env.storeOk then (none, last)
  else if ¬ env.sharing then (none, last)
  else
    match env.localId with
    | none => (none, last)
    | some me =>
      if ¬ env.senderReady ∨ ¬ env.topicReady then (none, last)
      else
        match env.readResult with
        | .error _ => (none, last)
        | .ok text =>
          if text ≠ last ∧ text ≠ "" then
            (some ⟨me, text⟩, if env.broadcastOk then text else last)
          else (none, last)

/-! ## Blob download and export (`iroh_fns/blob_ops.rs`) -/

/-- `iroh_blobs::store::ExportMode`. -/
inductive ExportMode
  | copy | tryReference
deriving DecidableEq, Repr

/-- `Path::parent`: `none` for the empty path, otherwise the path without its
final component. -/
def pathParent (p : Path) : Option Path :=
  if p = [] then none else some p.dropLast

/-- Trace of the filesystem/network actions of a blob download-and-export:
the `create_dir_all` target when one was issued, the `(hash, node)` a
download was completed for, and the `(hash, destination, mode)` of a
completed export. -/
structure BlobFetchTrace where
  mkdirCalled : Option Path
  downloaded : Option (Nat × NodeId)
  exported : Option (Nat × Path × ExportMode)
deriving DecidableEq, Repr

/-- `get_iroh_blob` (`iroh_fns/blob_ops.rs`, lines 14-45): ensure the parent
directory of `dest` exists, download the ticket's hash from its node, then
export it to `dest` with `ExportFormat::Blob` and `ExportMode::Copy`.
`parentExists`, `mkdirOk`, `downloadOk`, `exportOk` record the environment's
outcomes for the corresponding calls; the returned Bool is overall success. -/
def getIrohBlob (parentExists mkdirOk downloadOk exportOk : Bool)
    (ticket : BlobTicketM) (dest : Path) : BlobFetchTrace × Bool :=
  let step1 : Option (Option Path) :=
    match pathParent dest with
    | some p => if ¬ parentExists then (if mkdirOk then some (some p) else none) else some none
    | none => some none
  match step1 with
  | none =>
    ({ mkdirCalled := some ((pathParent dest).getD []), downloaded := none,
       exported := none }, false)
  | some made =>
    if ¬ downloadOk then
      ({ mkdirCalled := made, downloaded := none, exported := none }, false)
    else if ¬ exportOk then
      ({ mkdirCalled := made, downloaded := some (ticket.hash, ticket.node),
         exported := none }, false)
    else
      ({ mkdirCalled := made, downloaded := some (ticket.hash, ticket.node),
         exported := some (ticket.hash, dest, .copy) }, true)

/-- The task spawned by `subscribe_loop` for a received FileAnnouncement
(`iroh_fns/gossip_ops.rs`, lines 244-264): compute
`dest = sync_path.join(relative_path)`, create the destination's parent
directory when missing, then run `get_iroh_blob`. `parentExists` is whether
the parent existed before this task ran. -/
def fileDownloadTask (parentExists mkdirOk downloadOk exportOk : Bool)
    (syncPath : Path) (f : GossipEventPayload) : BlobFetchTrace × Bool :=
  let dest := syncPath ++ f.relative_path
  match pathParent dest with
  | some p =>
    if ¬ parentExists then
      if mkdirOk then
        -- after create_dir_all the parent exists, so get_iroh_blob's own
        -- check finds it present
        let r := getIrohBlob true mkdirOk downloadOk exportOk f.message_content dest
        ({ r.1 with mkdirCalled := some p }, r.2)
      else ({ mkdirCalled := some p, downloaded := none, exported := none }, false)
    else getIrohBlob true mkdirOk downloadOk exportOk f.message_content dest
  | none => getIrohBlob parentExists mkdirOk downloadOk exportOk f.message_content dest

/-! ## The gossip receive loop (`iroh_fns/gossip_ops.rs`, `subscribe_loop`) -/

/-- The result of the try-parse-in-order cascade of `subscribe_loop` on a
received message's bytes: first `ClipboardPayload::from_bytes`, then
`GossipEventPayload::from_bytes`, else undecodable. -/
inductive InboundMsg
  | clip (c : ClipboardPayload)
  | file (f : GossipEventPayload)
  | undecodable
deriving DecidableEq, Repr

/-- Environment of one `Received` iteration of `subscribe_loop`: the local
node id (from the shared endpoint, when present), the store access outcome
and stored sharing flag, presence of the clipboard monitor, the outcome a
clipboard `set_text` would have, and the sync root. -/
structure RecvEnv where
  localId : Option NodeId
  storeOk : Bool
  sharing : Bool
  monitorPresent : Bool
  setTextOk : Bool
  syncPath : Path
deriving Repr

/-- Actions of one `Received` iteration of `subscribe_loop`: the content a
clipboard `set_text` was called with (if any), the download task spawned (its
ticket and destination, if any), and whether a `gossip://message` event was
emitted. -/
structure RecvActions where
  setTextCalled : Option String
  download : Option (BlobTicketM × Path)
  emittedFile : Bool
deriving DecidableEq, Repr

/-- No actions. -/
def noRecvActions : RecvActions := ⟨none, none, false⟩

/-- One `Received` iteration of `subscribe_loop` (`iroh_fns/gossip_ops.rs`,
lines 193-270) on an already-parsed message: the clipboard branch checks the
sender against the local node id, store accessibility, the sharing flag and
monitor presence before calling `set_local_clipboard_content`; the file
branch emits the payload and spawns the download task unconditionally. -/
def receiveStep (env : RecvEnv) (st : ClipState) : InboundMsg → RecvActions × ClipState
  | .clip c =>
    match env.localId with
    | none => (noRecvActions, st)
    | some me =>
      if c.from_node_id = me then (noRecvActions, st)
      else if ¬ env.storeOk then (noRecvActions, st)
      else if env.sharing then
        if env.monitorPresent then
          let r := setLocalClipboardContent env.storeOk env.sharing env.setTextOk
            c.content st
          ({ noRecvActions with setTextCalled := r.attempted }, r.state)
        else (noRecvActions, st)
      else (noRecvActions, st)
  | .file f =>
    ({ setTextCalled := none,
       download := some (f.message_content, env.syncPath ++ f.relative_path),
       emittedFile := true }, st)
  | .undecodable => (noRecvActions, st)

/-! ## FS-event dispatch (`iroh_fns/gossip_ops.rs`, `handle_fs_payload`) -/

/-- The `{hash, format}` descriptor returned by a blob import
(`add_from_path(...).finish()`). -/
structure BlobDescriptor where
  hash : Nat
  format : BlobFormat
deriving DecidableEq, Repr

/-- `create_iroh_ticket` (`iroh_fns/tickets.rs`, lines 67-82): import the
file (outcome `importResult`), then build
`BlobTicket::new(endpoint.node_id(), blob.hash, blob.format)`. -/
def createIrohTicket (nodeId : NodeId) (importResult : Except Unit BlobDescriptor) :
    Except Unit BlobTicketM :=
  match importResult with
  | .ok d => .ok ⟨nodeId, d.hash, d.format⟩
  | .error e => .error e

/-- `Path::strip_prefix` at component level: succeeds iff `base` is a prefix
of `p`, yielding the remaining components. -/
def stripSyncRoot (base p : Path) : Option Path :=
  if base.isPrefixOf p then some (p.drop base.length) else none

/-- `Path::file_name`: the final path component. -/
def pathFileName (p : Path) : Option String := p.getLast?

/-- Environment of one `handle_fs_payload` invocation: the shared handles as
read from `AppState`, the contents of the `gossip_topic` and `gossip_sender`
mutexes, and the outcome of the blob import. -/
structure FsDispatchEnv where
  endpointId : Option NodeId
  blobsPresent : Bool
  syncFolder : Path
  topic : Option TopicId
  senderPresent : Bool
  importResult : Except Unit BlobDescriptor
deriving Repr

/-- An early-return guard: succeeds exactly when the flag holds. -/
def boolGuard (b : Bool) : Option Unit := if b then some () else none

/-- `handle_fs_payload` (`iroh_fns/gossip_ops.rs`, lines 80-177): on a Create
event, with endpoint and blobs present, import the file and build a blob
ticket, then — only if the active topic and sender are both set and the
sync-root prefix strip and file-name extraction succeed — construct the
FileAnnouncement that is broadcast. Returns the broadcast message, `none`
when th event is dropped; each `bind` is one of the source's early
returns, in source order. Remove and all other event types only log. -/
def handleFsPayload (env : FsDispatchEnv) (payload : FsEventPayload) :
    Option GossipEventPayload :=
  match payload.event_type with
  | .create =>
    env.endpointId.bind fun me =>
    (boolGuard env.blobsPresent).bind fun _ =>
    (createIrohTicket me env.importResult).toOption.bind fun ticket =>
    env.topic.bind fun topicId =>
    (boolGuard env.senderPresent).bind fun _ =>
    (stripSyncRoot env.syncFolder payload.path).bind fun rel =>
    (pathFileName payload.path).bind fun nm =>
    some ⟨me, topicId, nm, rel, ticket⟩
  | _ => none

/-! ## Joining the gossip overlay (`commands/gossip_commands.rs`, `join_gossip`) -/

/-- Environment of one `join_gossip` command: presence of the shared handles,
the ticket-parse outcome, and success of the store persist, the
subscribe (`join_iroh_gossip`) and the final `gossip-ready` emit. -/
structure JoinEnv where
  endpointPresent : Bool
  gossipPresent : Bool
  parsedTopic : Option TopicId
  storeOk : Bool
  subscribeOk : Bool
  blobsPresent : Bool
  emitOk : Bool
deriving Repr

/-- The two interior-mutable fields of `AppState` that `join_gossip` writes:
`gossip_topic` and `gossip_sender` (the sender handle modelled by
`Option Unit`). -/
structure GossipShared where
  topic : Option TopicId
  sender : Option Unit
deriving DecidableEq, Repr

/-- `join_gossip` (`commands/gossip_commands.rs`, lines 74-144), as a
transformer of the shared `(gossip_topic, gossip_sender)` state: endpoint,
gossip handle, ticket parse and store persist are checked first; then
`gossip_topic` is set; then `join_iroh_gossip` subscribes (on failure the
command errors with the topic already set); then `gossip_sender` is set; the
command can still fail afterwards when the blobs handle is absent or the
`gossip-ready` emit fails. -/
def joinGossip (env : JoinEnv) (st : GossipShared) : Except Unit Bool × GossipShared :=
  if ¬ env.endpointPresent then (.error (), st)
  else if ¬ env.gossipPresent then (.error (), st)
  else
    match env.parsedTopic with
    | none => (.error (), st)
    | some t =>
      if ¬ env.storeOk then (.error (), st)
      else
        let st1 : GossipShared := { st with topic := some t }
        if ¬ env.subscribeOk then (.error (), st1)
        else
          let st2 : GossipShared := { st1 with sender := some () }
          if ¬ env.blobsPresent then (.error (), st2)
          else if ¬ env.emitOk then (.error (), st2)
          else (.ok true, st2)

/-! ## Base32 (RFC 4648, no padding), as used by `data_encoding::BASE32_NOPAD`

`GossipTicket::Display` encodes the ticket's JSON bytes with
`BASE32_NOPAD.encode` and lowercases the result; `GossipTicket::from_str`
uppercases and decodes (`iroh_fns/tickets.rs`, lines 37-51). Bytes and
characters are `Nat` ASCII codes; inputs are intended `< 256` (`u8`). -/

/-- The base32 alphabet `A`-`Z` `2`-`7`: symbol value to ASCII code. -/
def b32Char (d : Nat) : Nat := if d < 26 then 65 + d else 24 + d

/-- `make_ascii_lowercase` on one byte. -/
def asciiToLower (c : Nat) : Nat := if 65 ≤ c ∧ c ≤ 90 then c + 32 else c

/-- `to_ascii_uppercase` on one byte. -/
def asciiToUpper (c : Nat) : Nat := if 97 ≤ c ∧ c ≤ 122 then c - 32 else c

/-- ASCII code to base32 symbol value; `none` for characters outside the
alphabet. -/
def b32CharVal (c : Nat) : Option Nat :=
  if 65 ≤ c ∧ c ≤ 90 then some (c - 65)
  else if 50 ≤ c ∧ c ≤ 55 then some (c - 50 + 26)
  else none

/-- `BASE32_NOPAD.encode`: full 5-byte groups become 8 symbols; a trailing
group of 1, 2, 3 or 4 bytes becomes 2, 4, 5 or 7 symbols, the final symbol
left-aligned with zero padding bits. -/
def b32Encode : List Nat → List Nat
  | b0 :: b1 :: b2 :: b3 :: b4 :: rest =>
    let n := b0 * 2 ^ 32 + b1 * 2 ^ 24 + b2 * 2 ^ 16 + b3 * 2 ^ 8 + b4
    b32Char (n / 2 ^ 35 % 32) :: b32Char (n / 2 ^ 30 % 32) ::
    b32Char (n / 2 ^ 25 % 32) :: b32Char (n / 2 ^ 20 % 32) ::
    b32Char (n / 2 ^ 15 % 32) :: b32Char (n / 2 ^ 10 % 32) ::
    b32Char (n / 2 ^ 5 % 32) :: b32Char (n % 32) :: b32Encode rest
  | [b0] => [b32Char (b0 / 8), b32Char (b0 % 8 * 4)]
  | [b0, b1] =>
    let n := b0 * 2 ^ 8 + b1
    [b32Char (n / 2 ^ 11), b32Char (n / 2 ^ 6 % 32), b32Char (n / 2 % 32),
     b32Char (n % 2 * 16)]
  | [b0, b1, b2] =>
    let n := b0 * 2 ^ 16 + b1 * 2 ^ 8 + b2
    [b32Char (n / 2 ^ 19), b32Char (n / 2 ^ 14 % 32), b32Char (n / 2 ^ 9 % 32),
     b32Char (n / 2 ^ 4 % 32), b32Char (n % 16 * 2)]
  | [b0, b1, b2, b3] =>
    let n := b0 * 2 ^ 24 + b1 * 2 ^ 16 + b2 * 2 ^ 8 + b3
    [b32Char (n / 2 ^ 27), b32Char (n / 2 ^ 22 % 32), b32Char (n / 2 ^ 17 % 32),
     b32Char (n / 2 ^ 12 % 32), b32Char (n / 2 ^ 7 % 32), b32Char (n / 2 ^ 2 % 32),
     b32Char (n % 4 * 8)]
  | [] => []

/-- `BASE32_NOPAD.decode`: groups of 8 symbols become 5 bytes; valid trailing
groups have 2, 4, 5 or 7 symbols (1, 3 or 6 are rejected, as are non-zero
padding bits — `data_encoding`'s default trailing-bits check — and
characters outside the alphabet). -/
def b32Decode : List Nat → Option (List Nat)
  | c0 :: c1 :: c2 :: c3 :: c4 :: c5 :: c6 :: c7 :: rest =>
    (b32CharVal c0).bind fun s0 =>
    (b32CharVal c1).bind fun s1 =>
    (b32CharVal c2).bind fun s2 =>
    (b32CharVal c3).bind fun s3 =>
    (b32CharVal c4).bind fun s4 =>
    (b32CharVal c5).bind fun s5 =>
    (b32CharVal c6).bind fun s6 =>
    (b32CharVal c7).bind fun s7 =>
    (b32Decode rest).bind fun bs =>
    let n := s0 * 2 ^ 35 + s1 * 2 ^ 30 + s2 * 2 ^ 25 + s3 * 2 ^ 20 + s4 * 2 ^ 15 +
      s5 * 2 ^ 10 + s6 * 2 ^ 5 + s7
    some (n / 2 ^ 32 :: n / 2 ^ 24 % 256 :: n / 2 ^ 16 % 256 :: n / 2 ^ 8 % 256 ::
      n % 256 :: bs)
  | [] => some []
  | [c0, c1] =>
    (b32CharVal c0).bind fun s0 =>
    (b32CharVal c1).bind fun s1 =>
    let n := s0 * 2 ^ 5 + s1
    if n % 4 = 0 then some [n / 4] else none
  | [c0, c1, c2, c3] =>
    (b32CharVal c0).bind fun s0 =>
    (b32CharVal c1).bind fun s1 =>
    (b32CharVal c2).bind fun s2 =>
    (b32CharVal c3).bind fun s3 =>
    let n := s0 * 2 ^ 15 + s1 * 2 ^ 10 + s2 * 2 ^ 5 + s3
    if n % 16 = 0 then some [n / 2 ^ 12, n / 2 ^ 4 % 256] else none
  | [c0, c1, c2, c3, c4] =>
    (b32CharVal c0).bind fun s0 =>
    (b32CharVal c1).bind fun s1 =>
    (b32CharVal c2).bind fun s2 =>
    (b32CharVal c3).bind fun s3 =>
    (b32CharVal c4).bind fun s4 =>
    let n := s0 * 2 ^ 20 + s1 * 2 ^ 15 + s2 * 2 ^ 10 + s3 * 2 ^ 5 + s4
    if n % 2 = 0 then some [n / 2 ^ 17, n / 2 ^ 9 % 256, n / 2 % 256] else none
  | [c0, c1, c2, c3, c4, c5, c6] =>
    (b32CharVal c0).bind fun s0 =>
    (b32CharVal c1).bind fun s1 =>
    (b32CharVal c2).bind fun s2 =>
    (b32CharVal c3).bind fun s3 =>
    (b32CharVal c4).bind fun s4 =>
    (b32CharVal c5).bind fun s5 =>
    (b32CharVal c6).bind fun s6 =>
    let n := s0 * 2 ^ 30 + s1 * 2 ^ 25 + s2 * 2 ^ 20 + s3 * 2 ^ 15 + s4 * 2 ^ 10 +
      s5 * 2 ^ 5 + s6
    if n % 8 = 0 then some [n / 2 ^ 27, n / 2 ^ 19 % 256, n / 2 ^ 11 % 256,
      n / 2 ^ 3 % 256] else none
  | _ => none

/-! ## A JSON model (`serde_json`)

`GossipTicket::to_bytes`/`from_bytes` are `serde_json::to_vec`/`from_slice`
(`iroh_fns/tickets.rs`, lines 27-34). The JSON value tree is modelled by a
mutual inductive; bytes are `Nat` ASCII codes, string contents are the raw
UTF-8 bytes of the Rust string (multi-byte sequences pass through unescaped,
exactly as `serde_json` leaves non-ASCII unescaped). The printer follows
`serde_json`'s compact output: no whitespace, `"`/`\` and control bytes
escaped (short escapes for `\b \t \n \f \r`, `\u00XX` otherwise), object
fields in declaration order. The parser accepts the printer's grammar — the
canonical form `serde_json` emits. -/

mutual
/-- A JSON value. -/
inductive Json where
  | null
  | bool (b : Bool)
  | num (n : Nat)
  | str (s : List Nat)
  | arr (xs : JsonList)
  | obj (kvs : JsonObj)
/-- The elements of a JSON array. -/
inductive JsonList where
  | nil
  | cons (hd : Json) (tl : JsonList)
/-- The fields of a JSON object, in order. -/
inductive JsonObj where
  | nil
  | cons (key : List Nat) (val : Json) (tl : JsonObj)
end

deriving instance DecidableEq for Json
deriving instance DecidableEq for JsonList
deriving instance DecidableEq for JsonObj

/-- Decimal digits of a positive number, least significant first. -/
def natDigitsRev : Nat → List Nat
  | 0 => []
  | n + 1 => ((n + 1) % 10 + 48) :: natDigitsRev ((n + 1) / 10)
  termination_by n => n
  decreasing_by simp_wf; omega

/-- Decimal ASCII representation of a `Nat` (`serde_json` number output for
`u8`…`u64` values). -/
def printNat (n : Nat) : List Nat :=
  if n = 0 then [48] else (natDigitsRev n).reverse

/-- Lowercase hexadecimal digit. -/
def hexDigit (d : Nat) : Nat := if d < 10 then 48 + d else 87 + d

/-- `serde_json`'s escaping of one string byte: `"` and `\` get a backslash,
the control bytes `\b \t \n \f \r` their short escapes, other control bytes
`\u00XX`; everything else passes through. -/
def escapeByte (c : Nat) : List Nat :=
  if c = 34 then [92, 34]
  else if c = 92 then [92, 92]
  else if c = 8 then [92, 98]
  else if c = 9 then [92, 116]
  else if c = 10 then [92, 110]
  else if c = 12 then [92, 102]
  else if c = 13 then [92, 114]
  else if c < 32 then [92, 117, 48, 48, hexDigit (c / 16), hexDigit (c % 16)]
  else [c]

/-- A JSON string literal: quote, escaped bytes, quote. -/
def printStr (s : List Nat) : List Nat := 34 :: (s.map escapeByte).flatten ++ [34]

mutual
/-- `serde_json::to_vec` on a JSON value (compact form). -/
def printJson : Json → List Nat
  | .null => [110, 117, 108, 108]
  | .bool true => [116, 114, 117, 101]
  | .bool false => [102, 97, 108, 115, 101]
  | .num n => printNat n
  | .str s => printStr s
  | .arr .nil => [91, 93]
  | .arr (.cons x xs) => 91 :: (printJson x ++ printArrTail xs ++ [93])
  | .obj .nil => [123, 125]
  | .obj (.cons k v kvs) =>
    123 :: (printStr k ++ 58 :: printJson v ++ printObjTail kvs ++ [125])
/-- Remaining array elements, each preceded by a comma. -/
def printArrTail : JsonList → List Nat
  | .nil => []
  | .cons x xs => 44 :: (printJson x ++ printArrTail xs)
/-- Remaining object fields, each preceded by a comma. -/
def printObjTail : JsonObj → List Nat
  | .nil => []
  | .cons k v kvs => 44 :: (printStr k ++ 58 :: printJson v ++ printObjTail kvs)
end

/-- Value of a hexadecimal digit character. -/
def hexVal (c : Nat) : Option Nat :=
  if 48 ≤ c ∧ c ≤ 57 then some (c - 48)
  else if 97 ≤ c ∧ c ≤ 102 then some (c - 87)
  else if 65 ≤ c ∧ c ≤ 70 then some (c - 55)
  else none

/-- Consume a run of decimal digits, accumulating their value. -/
def parseDigits : List Nat → Nat → Nat × List Nat
  | c :: rest, acc =>
    if 48 ≤ c ∧ c ≤ 57 then parseDigits rest (acc * 10 + (c - 48))
    else (acc, c :: rest)
  | [], acc => (acc, [])

/-- Consume an expected byte sequence. -/
def expectBytes : List Nat → List Nat → Option (List Nat)
  | [], rest => some rest
  | e :: es, c :: rest => if c = e then expectBytes es rest else none
  | _ :: _, [] => none

/-- Parse a JSON string body up to the closing quote, undoing the escapes the
printer emits (`\u` escapes are mapped to their code-point value, which for
the printer's `\u00XX` output is the original byte). -/
def parseStrBody : List Nat → Option (List Nat × List Nat)
  | [] => none
  | c :: rest =>
    if c = 34 then some ([], rest)
    else if c = 92 then
      match rest with
      | [] => none
      | e :: rest2 =>
        if e = 34 then (parseStrBody rest2).map fun sr => (34 :: sr.1, sr.2)
        else if e = 92 then (parseStrBody rest2).map fun sr => (92 :: sr.1, sr.2)
        else if e = 98 then (parseStrBody rest2).map fun sr => (8 :: sr.1, sr.2)
        else if e = 116 then (parseStrBody rest2).map fun sr => (9 :: sr.1, sr.2)
        else if e = 110 then (parseStrBody rest2).map fun sr => (10 :: sr.1, sr.2)
        else if e = 102 then (parseStrBody rest2).map fun sr => (12 :: sr.1, sr.2)
        else if e = 114 then (parseStrBody rest2).map fun sr => (13 :: sr.1, sr.2)
        else if e = 117 then
          match rest2 with
          | h1 :: h2 :: h3 :: h4 :: rest3 =>
            (hexVal h1).bind fun d1 =>
            (hexVal h2).bind fun d2 =>
            (hexVal h3).bind fun d3 =>
            (hexVal h4).bind fun d4 =>
            (parseStrBody rest3).map fun sr =>
              ((d1 * 4096 + d2 * 256 + d3 * 16 + d4) :: sr.1, sr.2)
          | _ => none
        else none
    else if c < 32 then none
    else (parseStrBody rest).map fun sr => (c :: sr.1, sr.2)

mutual
/-- Fueled recursive-descent parser for one JSON value in the printer's
(compact, canonical) grammar. -/
def parseVal : Nat → List Nat → Option (Json × List Nat)
  | 0, _ => none
  | f + 1, bs =>
    match bs with
    | [] => none
    | c :: rest =>
      if c = 110 then (expectBytes [117, 108, 108] rest).map fun r => (.null, r)
      else if c = 116 then (expectBytes [114, 117, 101] rest).map fun r => (.bool true, r)
      else if c = 102 then
        (expectBytes [97, 108, 115, 101] rest).map fun r => (.bool false, r)
      else if c = 34 then (parseStrBody rest).map fun sr => (.str sr.1, sr.2)
      else if c = 91 then
        if rest.head? = some 93 then some (.arr .nil, rest.tail)
        else
          (parseVal f rest).bind fun xr =>
          (parseArrTail f xr.2).map fun tr => (.arr (.cons xr.1 tr.1), tr.2)
      else if c = 123 then
        if rest.head? = some 125 then some (.obj .nil, rest.tail)
        else if rest.head? = some 34 then
          (parseStrBody rest.tail).bind fun kr =>
          if kr.2.head? = some 58 then
            (parseVal f kr.2.tail).bind fun vr =>
            (parseObjTail f vr.2).map fun tr => (.obj (.cons kr.1 vr.1 tr.1), tr.2)
          else none
        else none
      else if 48 ≤ c ∧ c ≤ 57 then
        some (.num (parseDigits rest (c - 48)).1, (parseDigits rest (c - 48)).2)
      else none
/-- Array elements after the first: `]` closes, `,` precedes each element. -/
def parseArrTail : Nat → List Nat → Option (JsonList × List Nat)
  | 0, _ => none
  | f + 1, bs =>
    match bs with
    | [] => none
    | c :: rest =>
      if c = 93 then some (.nil, rest)
      else if c = 44 then
        (parseVal f rest).bind fun xr =>
        (parseArrTail f xr.2).map fun tr => (.cons xr.1 tr.1, tr.2)
      else none
/-- Object fields after the first: `}` closes, `,"key":value` otherwise. -/
def parseObjTail : Nat → List Nat → Option (JsonObj × List Nat)
  | 0, _ => none
  | f + 1, bs =>
    match bs with
    | [] => none
    | c :: rest =>
      if c = 125 then some (.nil, rest)
      else if c = 44 then
        if rest.head? = some 34 then
          (parseStrBody rest.tail).bind fun kr =>
          if kr.2.head? = some 58 then
            (parseVal f kr.2.tail).bind fun vr =>
            (parseObjTail f vr.2).map fun tr => (.cons kr.1 vr.1 tr.1, tr.2)
          else none
        else none
      else none
end

/-! ## Gossip tickets (`iroh_fns/tickets.rs`) and their JSON form

`GossipTicket { topic, nodes }` serializes through `serde_json`. The JSON
forms of the external iroh types are modelled from those crates' serde
implementations: `NodeId` (iroh `PublicKey`) serializes human-readably as its
lowercase-hex string; `TopicId` (iroh-gossip) has a plain derived serde over
`[u8; 32]`, so its JSON form is an array of 32 integers, while its `Display`
is lowercase base32; `NodeAddr` is a derived struct
`{node_id, relay_url, direct_addresses}` with `RelayUrl` and `SocketAddr`
serializing as strings. -/

/-- Lowercase hex encoding of a byte string. -/
def hexEncode (bs : List Nat) : List Nat :=
  (bs.map fun b => [hexDigit (b / 16), hexDigit (b % 16)]).flatten

/-- Decode a string of hex digit pairs back to bytes. -/
def hexPairsDecode : List Nat → Option (List Nat)
  | [] => some []
  | h :: l :: rest =>
    (hexVal h).bind fun hi =>
    (hexVal l).bind fun lo =>
    (hexPairsDecode rest).map fun bs => (hi * 16 + lo) :: bs
  | _ => none

/-- An iroh `NodeAddr`: node id plus optional relay URL and direct socket
addresses (URL and addresses by their string bytes). -/
structure NodeAddrM where
  node_id : NodeId
  relay_url : Option (List Nat)
  direct_addresses : List (List Nat)
deriving DecidableEq, Repr

/-- `GossipTicket` from `iroh_fns/tickets.rs`. -/
structure GossipTicketM where
  topic : TopicId
  nodes : List NodeAddrM
deriving DecidableEq, Repr

/-- Embed a `List Json` as a `JsonList`. -/
def listToJsonList : List Json → JsonList
  | [] => .nil
  | x :: xs => .cons x (listToJsonList xs)

/-- `NodeId` serde: a lowercase-hex JSON string. -/
def nodeIdToJson (n : NodeId) : Json := .str (hexEncode n.bytes)

/-- `NodeId` deserialization: a hex string decoding to exactly 32 bytes
(ed25519 point validity, which every Rust `NodeId` value satisfies, is not
modelled). -/
def nodeIdFromJson : Json → Option NodeId
  | .str s => (hexPairsDecode s).bind fun bs =>
      if bs.length = 32 then some ⟨bs⟩ else none
  | _ => none

/-- `TopicId` serde (derived over `[u8; 32]`): a JSON array of 32 numbers. -/
def topicIdToJson (t : TopicId) : Json :=
  .arr (listToJsonList (t.bytes.map Json.num))

/-- Deserialize a JSON array of `u8` values. -/
def jsonListToBytes : JsonList → Option (List Nat)
  | .nil => some []
  | .cons (.num n) xs =>
    if n < 256 then (jsonListToBytes xs).map fun bs => n :: bs else none
  | .cons _ _ => none

/-- `TopicId` deserialization: an array of 32 numbers below 256. A JSON
string never deserializes as a `TopicId`. -/
def topicIdFromJson : Json → Option TopicId
  | .arr xs => (jsonListToBytes xs).bind fun bs =>
      if bs.length = 32 then some ⟨bs⟩ else none
  | _ => none

/-- The ASCII bytes of `"node_id"`. -/
def keyNodeId : List Nat := [110, 111, 100, 101, 95, 105, 100]

/-- The ASCII bytes of `"relay_url"`. -/
def keyRelayUrl : List Nat := [114, 101, 108, 97, 121, 95, 117, 114, 108]

/-- The ASCII bytes of `"direct_addresses"`. -/
def keyDirectAddresses : List Nat :=
  [100, 105, 114, 101, 99, 116, 95, 97, 100, 100, 114, 101, 115, 115, 101, 115]

/-- The ASCII bytes of `"topic"`. -/
def keyTopic : List Nat := [116, 111, 112, 105, 99]

/-- The ASCII bytes of `"nodes"`. -/
def keyNodes : List Nat := [110, 111, 100, 101, 115]

/-- `NodeAddr` serde: object with its three fields in declaration order. -/
def nodeAddrToJson (a : NodeAddrM) : Json :=
  .obj (.cons keyNodeId (nodeIdToJson a.node_id)
    (.cons keyRelayUrl (match a.relay_url with | none => .null | some u => .str u)
      (.cons keyDirectAddresses
        (.arr (listToJsonList (a.direct_addresses.map Json.str))) .nil)))

/-- `Option<RelayUrl>` deserialization. -/
def relayFromJson : Json → Option (Option (List Nat))
  | .null => some none
  | .str u => some (some u)
  | _ => none

/-- Deserialize a JSON array of strings. -/
def jsonListToStrs : JsonList → Option (List (List Nat))
  | .nil => some []
  | .cons (.str s) xs => (jsonListToStrs xs).map fun l => s :: l
  | .cons _ _ => none

/-- `NodeAddr` deserialization of the canonical emitted form. -/
def nodeAddrFromJson : Json → Option NodeAddrM
  | .obj (.cons k1 v1 (.cons k2 v2 (.cons k3 v3 .nil))) =>
    if k1 = keyNodeId ∧ k2 = keyRelayUrl ∧ k3 = keyDirectAddresses then
      (nodeIdFromJson v1).bind fun nid =>
      (relayFromJson v2).bind fun ru =>
      (match v3 with | .arr xs => jsonListToStrs xs | _ => none).map fun das =>
        ⟨nid, ru, das⟩
    else none
  | _ => none

/-- Deserialize a JSON array of `NodeAddr` objects. -/
def jsonListToNodeAddrs : JsonList → Option (List NodeAddrM)
  | .nil => some []
  | .cons x xs => (nodeAddrFromJson x).bind fun a =>
      (jsonListToNodeAddrs xs).map fun l => a :: l

/-- The JSON value of a `GossipTicket`: `{topic, nodes}` in order. -/
def gossipTicketToJson (t : GossipTicketM) : Json :=
  .obj (.cons keyTopic (topicIdToJson t.topic)
    (.cons keyNodes (.arr (listToJsonList (t.nodes.map nodeAddrToJson))) .nil))

/-- `GossipTicket` deserialization of the canonical emitted form. -/
def gossipTicketFromJson : Json → Option GossipTicketM
  | .obj (.cons k1 v1 (.cons k2 v2 .nil)) =>
    if k1 = keyTopic ∧ k2 = keyNodes then
      (topicIdFromJson v1).bind fun tp =>
      (match v2 with | .arr xs => jsonListToNodeAddrs xs | _ => none).map fun ns =>
        ⟨tp, ns⟩
    else none
  | _ => none

/-- `GossipTicket::to_bytes` (`serde_json::to_vec`). -/
def gossipTicketToBytes (t : GossipTicketM) : List Nat :=
  printJson (gossipTicketToJson t)

/-- `GossipTicket::from_bytes` (`serde_json::from_slice`): parse one JSON
value consuming the whole input, then deserialize the structure. -/
def gossipTicketFromBytes (bs : List Nat) : Option GossipTicketM :=
  match parseVal (bs.length + 1) bs with
  | some (j, []) => gossipTicketFromJson j
  | _ => none

/-- `GossipTicket::Display` (`iroh_fns/tickets.rs`, lines 37-43): base32
(no padding) of the JSON bytes, lowercased. -/
def gossipTicketToString (t : GossipTicketM) : List Nat :=
  (b32Encode (gossipTicketToBytes t)).map asciiToLower

/-- `GossipTicket::from_str` (`iroh_fns/tickets.rs`, lines 45-51): uppercase,
base32-decode, then `from_bytes`. -/
def gossipTicketFromString (s : List Nat) : Option GossipTicketM :=
  (b32Decode (s.map asciiToUpper)).bind gossipTicketFromBytes

/-- Well-formedness of a ticket value as a value of the Rust type: 32-byte
identifiers and byte-valued (`u8`) string contents. -/
def WfGossipTicket (t : GossipTicketM) : Prop :=
  t.topic.bytes.length = 32 ∧ (∀ b ∈ t.topic.bytes, b < 256) ∧
  ∀ a ∈ t.nodes, a.node_id.bytes.length = 32 ∧ (∀ b ∈ a.node_id.bytes, b < 256) ∧
    (∀ u, a.relay_url = some u → ∀ c ∈ u, c < 256) ∧
    ∀ s ∈ a.direct_addresses, ∀ c ∈ s, c < 256

mutual
/-- Byte-range well-formedness of a JSON value (string contents are bytes). -/
def jsonWf : Json → Bool
  | .str s => s.all fun c => decide (c < 256)
  | .arr xs => jsonListWf xs
  | .obj kvs => jsonObjWf kvs
  | _ => true
/-- Byte-range well-formedness of array elements. -/
def jsonListWf : JsonList → Bool
  | .nil => true
  | .cons x xs => jsonWf x && jsonListWf xs
/-- Byte-range well-formedness of object fields. -/
def jsonObjWf : JsonObj → Bool
  | .nil => true
  | .cons k v kvs => (k.all fun c => decide (c < 256)) && jsonWf v && jsonObjWf kvs
end

/-- `TopicId::to_string` (external iroh-gossip `Display`): lowercase base32
of the 32 bytes. -/
def topicIdDisplay (t : TopicId) : List Nat := (b32Encode t.bytes).map asciiToLower

/-! ## `create_gossip_ticket` (`commands/gossip_commands.rs`, lines 37-72)

The command reads `topic-id` from the external store with
`serde_json::from_value::<TopicId>`, falling back to a fresh random topic
when the stored value fails to deserialize or is absent; it then persists
`topic_id.to_string()` (the Display string) and builds the ticket from the
endpoint's own `NodeAddr`. The store and `node_addr` outcomes are the
environment flags. -/
def createGossipTicket (endpointPresent storeOk nodeAddrOk : Bool) (me : NodeAddrM)
    (stored : Option Json) (fresh : TopicId) : Except Unit (GossipTicketM × Json) :=
  if ¬ endpointPresent then .error ()
  else if ¬ storeOk then .error ()
  else
    let topicId : TopicId :=
      match stored with
      | some v =>
        match topicIdFromJson v with
        | some t => t
        | none => fresh
      | none => fresh
    if ¬ nodeAddrOk then .error ()
    else .ok (⟨topicId, [me]⟩, Json.str (topicIdDisplay topicId))

end Synkro

namespace Synkro

/-! ## Claim theorems (first group) -/

/-- **C10.** FS event classification: Create kinds and rename-to map to
Create; Remove kinds and rename-from map to Remove; data modifications,
metadata modifications and rename-within-tree (Rename Both) map to Modify;
Rename Any maps to Create when the event path exists and to Remove when it
does not; access and unknown kinds map to Other; and a watcher-internal
error yields an Error event whose path is empty. -/
theorem fs_event_classification
    (pe : Path → Bool) (c : CreateKind) (r : RemoveKind) (d : DataChange)
    (m : MetadataKind) (a : AccessKind) (ev : NotifyEvent) :
    (handleEventResult pe (.ok { ev with kind := .create c })).event_type = .create
    ∧ (handleEventResult pe (.ok { ev with kind := .modify (.name .toPath) })).event_type
        = .create
    ∧ (handleEventResult pe (.ok { ev with kind := .remove r })).event_type = .remove
    ∧ (handleEventResult pe (.ok { ev with kind := .modify (.name .fromPath) })).event_type
        = .remove
    ∧ (handleEventResult pe (.ok { ev with kind := .modify (.data d) })).event_type
        = .modify
    ∧ (handleEventResult pe (.ok { ev with kind := .modify (.metadata m) })).event_type
        = .modify
    ∧ (handleEventResult pe (.ok { ev with kind := .modify (.name .both) })).event_type
        = .modify
    ∧ (handleEventResult pe (.ok { ev with kind := .modify (.name .any) })).event_type
        = (if pe ((ev.paths.head?).getD []) then .create else .remove)
    ∧ (handleEventResult pe (.ok { ev with kind := .access a })).event_type = .otherEvent
    ∧ (handleEventResult pe (.ok { ev with kind := .other })).event_type = .otherEvent
    ∧ (handleEventResult pe (.ok { ev with kind := .modify (.name .other) })).event_type
        = .otherEvent
    ∧ (handleEventResult pe (.ok { ev with kind := .modify .other })).event_type
        = .otherEvent
    ∧ handleEventResult pe (.error ()) = { event_type := .error, path := [] } := by
  refine ⟨rfl, rfl, rfl, rfl, rfl, rfl, rfl, ?_, rfl, rfl, rfl, rfl, rfl⟩
  simp [handleEventResult, classifyKind]

/-- **C7.** Secret-key startup behaviour: a 32-byte `secret_key` file is
loaded verbatim (so the NodeId derived from it is identical across cold
starts) and nothing is written; a file of any other size makes setup fail
with an initialization error and no key is regenerated; a missing file leads
to a freshly generated key that is persisted to the file. -/
theorem secret_key_startup (bytes fresh : List Nat) :
    (bytes.length = 32 →
      loadOrCreateSecretKey (.present bytes) fresh = .ok ⟨bytes, none⟩)
    ∧ (bytes.length ≠ 32 →
      ∃ msg, loadOrCreateSecretKey (.present bytes) fresh = .error msg)
    ∧ loadOrCreateSecretKey .missing fresh = .ok ⟨fresh, some fresh⟩ := by
  refine ⟨fun h => ?_, fun h => ?_, rfl⟩
  · simp [loadOrCreateSecretKey, h]
  · refine ⟨"Secret key file has incorrect size: expected 32 bytes.", ?_⟩
    simp [loadOrCreateSecretKey, h]

/-- Witness for C7: concrete evaluations discharging each hypothesis — a
32-byte file loads verbatim, a 31-byte file fails. -/
theorem secret_key_startup_witness :
    loadOrCreateSecretKey (.present (List.replicate 32 0)) [7]
      = .ok ⟨List.replicate 32 0, none⟩
    ∧ ∃ msg, loadOrCreateSecretKey (.present (List.replicate 31 0)) [7] = .error msg := by
  exact ⟨(secret_key_startup (List.replicate 32 0) [7]).1 (by simp),
    (secret_key_startup (List.replicate 31 0) [7]).2.1 (by simp)⟩

/-- A ready poll tick whose clipboard read failed does nothing. -/
theorem pollTick_ready_err (env : PollEnv) (last : String) (me : NodeId) (e : Unit)
    (hst : env.storeOk = true) (hsh : env.sharing = true)
    (hid : env.localId = some me) (hsr : env.senderReady = true)
    (htr : env.topicReady = true) (hre : env.readResult = .error e) :
    pollTick env last = (none, last) := by
  unfold pollTick
  rw [hst, hsh, hid, hsr, htr, hre]
  simp

/-- A ready poll tick whose clipboard read returned `text`. -/
theorem pollTick_ready_ok (env : PollEnv) (last text : String) (me : NodeId)
    (hst : env.storeOk = true) (hsh : env.sharing = true)
    (hid : env.localId = some me) (hsr : env.senderReady = true)
    (htr : env.topicReady = true) (hre : env.readResult = .ok text) :
    pollTick env last =
      if text ≠ last ∧ text ≠ "" then
        (some ⟨me, text⟩, if env.broadcastOk then text else last)
      else (none, last) := by
  unfold pollTick
  rw [hst, hsh, hid, hsr, htr, hre]
  simp

/-- **C9.** Clipboard polling emit condition: on a poll tick with the store
accessible, sharing enabled, the endpoint present and gossip ready, a
ClipboardAnnouncement `{from = local NodeId, content = text}` is broadcast
iff the read clipboard text is non-empty and differs from "last observed";
"last observed" is updated to the new text only when the broadcast succeeds;
in particular re-reading the previously observed content broadcasts
nothing. -/
theorem clipboard_poll_emit (env : PollEnv) (last : String) (me : NodeId)
    (hst : env.storeOk = true) (hsh : env.sharing = true)
    (hid : env.localId = some me) (hsr : env.senderReady = true)
    (htr : env.topicReady = true) :
    (∀ t, (pollTick env last).1 = some ⟨me, t⟩ ↔
        env.readResult = .ok t ∧ t ≠ "" ∧ t ≠ last)
    ∧ (env.readResult = .ok last → pollTick env last = (none, last))
    ∧ ((pollTick env last).2 ≠ last →
        env.broadcastOk = true ∧ (pollTick env last).1 ≠ none)
    ∧ (∀ t, env.readResult = .ok t → t ≠ "" → t ≠ last →
        pollTick env last = (some ⟨me, t⟩, if env.broadcastOk then t else last)) := by
  rcases hr : env.readResult with e | text
  · rw [pollTick_ready_err env last me e hst hsh hid hsr htr hr]
    refine ⟨fun t => ⟨fun h => ?_, fun h => ?_⟩, fun _ => rfl, fun h => absurd rfl h,
      fun t ht => ?_⟩
    · simp at h
    · simp at h
    · simp at ht
  · rw [pollTick_ready_ok env last text me hst hsh hid hsr htr hr]
    by_cases h1 : text = last
    · subst h1
      rw [if_neg (fun h => h.1 rfl)]
      refine ⟨fun t => ⟨fun h => (by simp at h), ?_⟩, fun _ => rfl,
        fun h => absurd rfl h, fun t ht _ h3 => ?_⟩
      · rintro ⟨het, _, hnl⟩
        cases het
        exact absurd rfl hnl
      · cases ht
        exact absurd rfl h3
    · by_cases h2 : text = ""
      · subst h2
        rw [if_neg (fun h => h.2 rfl)]
        refine ⟨fun t => ⟨fun h => (by simp at h), ?_⟩, fun _ => rfl,
          fun h => absurd rfl h, fun t ht hne _ => ?_⟩
        · rintro ⟨het, hne, _⟩
          cases het
          exact absurd rfl hne
        · cases ht
          exact absurd rfl hne
      · rw [if_pos ⟨h1, h2⟩]
        refine ⟨fun t => ⟨fun h => ?_, ?_⟩, fun het => ?_, ?_, fun t ht _ _ => ?_⟩
        · have : text = t := congrArg ClipboardPayload.content (Option.some.inj h)
          subst this
          exact ⟨rfl, h2, h1⟩
        · rintro ⟨het, _, _⟩
          cases het
          rfl
        · cases het
          exact absurd rfl h1
        · intro hl
          cases hb : env.broadcastOk
          · rw [hb] at hl
            exact absurd rfl hl
          · exact ⟨rfl, by simp⟩
        · cases ht
          rfl

/-- Witness for C9: a concrete ready tick with fresh text "x" broadcasts it
and updates "last observed". -/
theorem clipboard_poll_emit_witness :
    pollTick ⟨true, true, some ⟨[1]⟩, true, true, .ok "x", true⟩ ""
      = (some ⟨⟨[1]⟩, "x"⟩, "x") := by
  have h := (clipboard_poll_emit ⟨true, true, some ⟨[1]⟩, true, true, .ok "x", true⟩
    "" ⟨[1]⟩ rfl rfl rfl rfl rfl).2.2.2 "x" rfl (by simp) (by simp)
  simpa using h

/-- **C8.** Apply-remote clipboard gating: with the local node id available,
an inbound ClipboardAnnouncement changes the clipboard state only when
sharing is enabled, the sender is not the local node and the clipboard write
succeeds (and then both the clipboard and "last observed" become the
announced content); when sharing is disabled or the sender is self, nothing
happens at all; "last observed" changes only when the clipboard write
succeeds. -/
theorem clipboard_apply_gating (env : RecvEnv) (st : ClipState)
    (c : ClipboardPayload) (me : NodeId) (hid : env.localId = some me) :
    ((receiveStep env st (.clip c)).2 ≠ st →
      env.sharing = true ∧ c.from_node_id ≠ me ∧ env.setTextOk = true
      ∧ (receiveStep env st (.clip c)).2 = ⟨c.content, c.content⟩
      ∧ (receiveStep env st (.clip c)).1.setTextCalled = some c.content)
    ∧ ((env.sharing = false ∨ c.from_node_id = me) →
      receiveStep env st (.clip c) = (noRecvActions, st))
    ∧ ((receiveStep env st (.clip c)).2.lastContent ≠ st.lastContent →
      env.setTextOk = true
      ∧ (receiveStep env st (.clip c)).2.clipboard = c.content) := by
  unfold receiveStep
  rw [hid]
  by_cases hfrom : c.from_node_id = me
  · simp [hfrom]
  · by_cases hstore : env.storeOk
    · by_cases hsh : env.sharing
      · by_cases hmon : env.monitorPresent
        · by_cases hset : env.setTextOk
          · simp [hfrom, hstore, hsh, hmon, hset, setLocalClipboardContent]
          · simp [hfrom, hstore, hsh, hmon, hset, setLocalClipboardContent]
        · simp [hfrom, hstore, hsh, hmon]
      · simp [hfrom, hstore, hsh]
    · simp [hfrom, hstore]

/-- Witness for C8: concrete instance — sharing disabled, remote sender,
the announcement leaves everything unchanged. -/
theorem clipboard_apply_gating_witness :
    receiveStep ⟨some ⟨[1]⟩, true, false, true, true, []⟩ ⟨"a", "b"⟩
      (.clip ⟨⟨[2]⟩, "c"⟩) = (noRecvActions, ⟨"a", "b"⟩) := by
  exact (clipboard_apply_gating ⟨some ⟨[1]⟩, true, false, true, true, []⟩ ⟨"a", "b"⟩
    ⟨⟨[2]⟩, "c"⟩ ⟨[1]⟩ rfl).2.1 (Or.inl rfl)

/-- **C1 (counterexample).** The claim states that an inbound FileAnnouncement
whose sender field equals the local NodeId is ignored (no blob download).
At this concrete input the sender equals the local node id, yet the receive
step spawns a blob download, so the claim as stated is false. -/
theorem self_echo_counterexample :
    (GossipEventPayload.fromNode ⟨⟨[1]⟩, ⟨[2]⟩, "b.txt", ["a", "b.txt"],
        ⟨⟨[1]⟩, 5, .raw⟩⟩ = ⟨[1]⟩)
    ∧ (receiveStep ⟨some ⟨[1]⟩, true, true, true, true, ["root"]⟩ ⟨"", ""⟩
        (.file ⟨⟨[1]⟩, ⟨[2]⟩, "b.txt", ["a", "b.txt"], ⟨⟨[1]⟩, 5, .raw⟩⟩)).1.download
      ≠ none := by
  exact ⟨rfl, by simp [receiveStep]⟩

/-- **C1 (amended).** Self-echo suppression holds for ClipboardAnnouncements:
one whose `from_node_id` equals the local NodeId produces no clipboard write
and no state change. FileAnnouncements are not filtered by sender in the
receive loop: a FileAnnouncement always spawns the blob download (even when
`from` equals the local NodeId — self-filtering of file announcements is
provided only by the gossip transport), and never writes the clipboard. -/
theorem self_echo_amended (env : RecvEnv) (st : ClipState) (c : ClipboardPayload)
    (f : GossipEventPayload) (me : NodeId) (hid : env.localId = some me)
    (hc : c.from_node_id = me) :
    receiveStep env st (.clip c) = (noRecvActions, st)
    ∧ (receiveStep env st (.file f)).1.download
        = some (f.message_content, env.syncPath ++ f.relative_path)
    ∧ (receiveStep env st (.file f)).1.setTextCalled = none
    ∧ (receiveStep env st (.file f)).2 = st := by
  refine ⟨?_, rfl, rfl, rfl⟩
  unfold receiveStep
  rw [hid]
  simp [hc]

/-- Witness for C1 (amended): concrete self-addressed clipboard payload is
ignored and a concrete file payload spawns its download. -/
theorem self_echo_amended_witness :
    receiveStep ⟨some ⟨[1]⟩, true, true, true, true, ["r"]⟩ ⟨"", ""⟩
        (.clip ⟨⟨[1]⟩, "c"⟩) = (noRecvActions, ⟨"", ""⟩)
    ∧ (receiveStep ⟨some ⟨[1]⟩, true, true, true, true, ["r"]⟩ ⟨"", ""⟩
        (.file ⟨⟨[3]⟩, ⟨[2]⟩, "f", ["d", "f"], ⟨⟨[3]⟩, 9, .raw⟩⟩)).1.download
      = some (⟨⟨[3]⟩, 9, .raw⟩, ["r", "d", "f"]) := by
  have h := self_echo_amended ⟨some ⟨[1]⟩, true, true, true, true, ["r"]⟩ ⟨"", ""⟩
    ⟨⟨[1]⟩, "c"⟩ ⟨⟨[3]⟩, ⟨[2]⟩, "f", ["d", "f"], ⟨⟨[3]⟩, 9, .raw⟩⟩ ⟨[1]⟩ rfl rfl
  exact ⟨h.1, h.2.1⟩

/-- **C4.** Receive-to-export: an inbound FileAnnouncement spawns a download
task whose destination is the sync root joined with the announced relative
path; when the download and export succeed, the task first creates the
destination's parent directory exactly when it was missing, downloads the
announced hash from the announced node, and exports it to precisely that
destination in Copy mode; if the needed directory creation fails, no export
happens. -/
theorem receive_file_export (env : RecvEnv) (st : ClipState)
    (f : GossipEventPayload) (parentExists downloadOk exportOk : Bool) :
    (receiveStep env st (.file f)).1.download
      = some (f.message_content, env.syncPath ++ f.relative_path)
    ∧ (downloadOk = true → exportOk = true →
      fileDownloadTask parentExists true downloadOk exportOk env.syncPath f
        = ({ mkdirCalled :=
               if parentExists then none
               else pathParent (env.syncPath ++ f.relative_path),
             downloaded := some (f.message_content.hash, f.message_content.node),
             exported := some (f.message_content.hash,
               env.syncPath ++ f.relative_path, .copy) }, true))
    ∧ (parentExists = false → pathParent (env.syncPath ++ f.relative_path) ≠ none →
      (fileDownloadTask parentExists false downloadOk exportOk env.syncPath f).1.exported
        = none) := by
  refine ⟨rfl, fun hd he => ?_, fun hp hne => ?_⟩
  · subst hd he
    unfold fileDownloadTask getIrohBlob
    rcases hpp : pathParent (env.syncPath ++ f.relative_path) with _ | p
    · cases parentExists <;> simp [hpp]
    · cases parentExists <;> simp [hpp]
  · subst hp
    unfold fileDownloadTask getIrohBlob
    rcases hpp : pathParent (env.syncPath ++ f.relative_path) with _ | p
    · exact absurd hpp hne
    · simp [hpp]

/-- **C3.** FS-create dispatch: the message broadcast for a Create event is
fully characterized — a FileAnnouncement is produced exactly when the
endpoint and blobs handles are present, the import succeeded, the active
topic and active sender are both set, the sync-root prefix strip succeeded
and a final path component exists; and then the announcement carries
`from = local NodeId`, the active topic, the stripped relative path, the
final component as file name, and a blob ticket referencing the local NodeId
and the hash of the just-imported bytes. All other outcomes drop the event
without broadcasting. -/
theorem fs_create_announce (env : FsDispatchEnv) (p : FsEventPayload)
    (msg : GossipEventPayload) :
    handleFsPayload env p = some msg ↔
      (p.event_type = .create ∧ ∃ me d tp rel nm,
        env.endpointId = some me ∧ env.blobsPresent = true
        ∧ env.importResult = .ok d ∧ env.topic = some tp
        ∧ env.senderPresent = true
        ∧ stripSyncRoot env.syncFolder p.path = some rel
        ∧ pathFileName p.path = some nm
        ∧ msg = ⟨me, tp, nm, rel, ⟨me, d.hash, d.format⟩⟩) := by
  obtain ⟨pet, ppath⟩ := p
  have hguard : ∀ (b : Bool) (u : Unit), boolGuard b = some u ↔ b = true := by
    intro b u
    cases b <;> simp [boolGuard]
  have hticket : ∀ (me : NodeId) (ir : Except Unit BlobDescriptor)
      (tk : BlobTicketM), (createIrohTicket me ir).toOption = some tk ↔
      ∃ d, ir = .ok d ∧ tk = ⟨me, d.hash, d.format⟩ := by
    intro me ir tk
    cases ir <;> simp [createIrohTicket, Except.toOption, eq_comm]
  cases pet <;>
    simp [handleFsPayload, Option.bind_eq_some, hguard, hticket]
  aesop

/-- **C2 (counterexample).** The claim states that when any step of the join
fails neither `active_topic` nor `active_sender` is newly set. Here the
subscribe step fails (`subscribeOk = false`) after a successful ticket parse
and store persist: the command errors, yet `active_topic` has been newly set
to the parsed topic, so the claim as stated is false. -/
theorem join_sets_topic_counterexample :
    joinGossip ⟨true, true, some ⟨[5]⟩, true, false, true, true⟩ ⟨none, none⟩
      = (.error (), ⟨some ⟨[5]⟩, none⟩)
    ∧ (some (⟨[5]⟩ : TopicId) ≠ none) := by
  exact ⟨rfl, by simp⟩

/-- **C2 (amended).** `active_sender` is set only by a successful subscribe,
and whenever it becomes set the topic has just been set to the parsed topic;
after a successful join both are set. A join that fails before the topic is
persisted (missing endpoint or gossip handle, ticket-parse failure, store
failure) changes neither field; but a join whose subscribe step fails leaves
`active_topic` newly set to the parsed topic while `active_sender` is
unchanged, and a join can still fail after both fields are set (missing
blobs handle, or failure of the `gossip-ready` emit). -/
theorem join_gossip_amended (env : JoinEnv) (st : GossipShared) :
    ((joinGossip env st).1 = .ok true ↔
      env.endpointPresent = true ∧ env.gossipPresent = true ∧ env.parsedTopic ≠ none
      ∧ env.storeOk = true ∧ env.subscribeOk = true ∧ env.blobsPresent = true
      ∧ env.emitOk = true)
    ∧ ((joinGossip env st).2.sender ≠ st.sender →
        env.subscribeOk = true ∧ (joinGossip env st).2.sender = some ()
        ∧ (joinGossip env st).2.topic = env.parsedTopic)
    ∧ ((joinGossip env st).1 = .ok true →
        (joinGossip env st).2 = ⟨env.parsedTopic, some ()⟩)
    ∧ ((env.endpointPresent = false ∨ env.gossipPresent = false
        ∨ env.parsedTopic = none ∨ env.storeOk = false) →
        (joinGossip env st).2 = st)
    ∧ (∀ t, env.parsedTopic = some t → env.endpointPresent = true →
        env.gossipPresent = true → env.storeOk = true → env.subscribeOk = false →
        joinGossip env st = (.error (), { st with topic := some t })) := by
  obtain ⟨ep, gp, pt, so, su, bl, em⟩ := env
  rcases pt with _ | t <;> cases ep <;> cases gp <;> cases so <;> cases su <;>
    cases bl <;> cases em <;> simp [joinGossip]

/-- Witness for C2 (amended): a concrete join whose subscribe fails leaves
the topic set and the sender unset. -/
theorem join_gossip_amended_witness :
    joinGossip ⟨true, true, some ⟨[6]⟩, true, false, true, true⟩ ⟨none, none⟩
      = (.error (), ⟨some ⟨[6]⟩, none⟩) := by
  exact (join_gossip_amended ⟨true, true, some ⟨[6]⟩, true, false, true, true⟩
    ⟨none, none⟩).2.2.2.2 ⟨[6]⟩ rfl rfl rfl rfl rfl

/-- Witness for C4: a concrete announcement exports to `r/a/b.txt`, creating
the missing directory `r/a` first. -/
theorem receive_file_export_witness :
    fileDownloadTask false true true true ["r"]
        ⟨⟨[3]⟩, ⟨[2]⟩, "b.txt", ["a", "b.txt"], ⟨⟨[3]⟩, 9, .raw⟩⟩
      = ({ mkdirCalled := some ["r", "a"],
           downloaded := some (9, ⟨[3]⟩),
           exported := some (9, ["r", "a", "b.txt"], .copy) }, true) := by
  have h := (receive_file_export ⟨some ⟨[1]⟩, true, true, true, true, ["r"]⟩ ⟨"", ""⟩
    ⟨⟨[3]⟩, ⟨[2]⟩, "b.txt", ["a", "b.txt"], ⟨⟨[3]⟩, 9, .raw⟩⟩ false true true).2.1
    rfl rfl
  simpa [pathParent] using h

end Synkro

namespace Synkro

/-! ## Base32 round-trip lemmas -/

/-- Each base32 symbol survives lowercasing, uppercasing back, and alphabet
lookup. -/
theorem b32CharVal_roundtrip : ∀ d < 32,
    b32CharVal (asciiToUpper (asciiToLower (b32Char d))) = some d := by decide

/-- Unfolding `b32Encode` on a full 5-byte group. -/
theorem b32Encode_cons5 (b0 b1 b2 b3 b4 : Nat) (rest : List Nat) :
    b32Encode (b0 :: b1 :: b2 :: b3 :: b4 :: rest) =
      b32Char ((b0 * 2 ^ 32 + b1 * 2 ^ 24 + b2 * 2 ^ 16 + b3 * 2 ^ 8 + b4) / 2 ^ 35 % 32) ::
      b32Char ((b0 * 2 ^ 32 + b1 * 2 ^ 24 + b2 * 2 ^ 16 + b3 * 2 ^ 8 + b4) / 2 ^ 30 % 32) ::
      b32Char ((b0 * 2 ^ 32 + b1 * 2 ^ 24 + b2 * 2 ^ 16 + b3 * 2 ^ 8 + b4) / 2 ^ 25 % 32) ::
      b32Char ((b0 * 2 ^ 32 + b1 * 2 ^ 24 + b2 * 2 ^ 16 + b3 * 2 ^ 8 + b4) / 2 ^ 20 % 32) ::
      b32Char ((b0 * 2 ^ 32 + b1 * 2 ^ 24 + b2 * 2 ^ 16 + b3 * 2 ^ 8 + b4) / 2 ^ 15 % 32) ::
      b32Char ((b0 * 2 ^ 32 + b1 * 2 ^ 24 + b2 * 2 ^ 16 + b3 * 2 ^ 8 + b4) / 2 ^ 10 % 32) ::
      b32Char ((b0 * 2 ^ 32 + b1 * 2 ^ 24 + b2 * 2 ^ 16 + b3 * 2 ^ 8 + b4) / 2 ^ 5 % 32) ::
      b32Char ((b0 * 2 ^ 32 + b1 * 2 ^ 24 + b2 * 2 ^ 16 + b3 * 2 ^ 8 + b4) % 32) ::
      b32Encode rest := rfl

/-- Unfolding `b32Decode` on eight leading symbols. -/
theorem b32Decode_cons8 (c0 c1 c2 c3 c4 c5 c6 c7 : Nat) (rest : List Nat) :
    b32Decode (c0 :: c1 :: c2 :: c3 :: c4 :: c5 :: c6 :: c7 :: rest) =
      (b32CharVal c0).bind fun s0 =>
      (b32CharVal c1).bind fun s1 =>
      (b32CharVal c2).bind fun s2 =>
      (b32CharVal c3).bind fun s3 =>
      (b32CharVal c4).bind fun s4 =>
      (b32CharVal c5).bind fun s5 =>
      (b32CharVal c6).bind fun s6 =>
      (b32CharVal c7).bind fun s7 =>
      (b32Decode rest).bind fun bs =>
      some ((s0 * 2 ^ 35 + s1 * 2 ^ 30 + s2 * 2 ^ 25 + s3 * 2 ^ 20 + s4 * 2 ^ 15 +
          s5 * 2 ^ 10 + s6 * 2 ^ 5 + s7) / 2 ^ 32 ::
        (s0 * 2 ^ 35 + s1 * 2 ^ 30 + s2 * 2 ^ 25 + s3 * 2 ^ 20 + s4 * 2 ^ 15 +
          s5 * 2 ^ 10 + s6 * 2 ^ 5 + s7) / 2 ^ 24 % 256 ::
        (s0 * 2 ^ 35 + s1 * 2 ^ 30 + s2 * 2 ^ 25 + s3 * 2 ^ 20 + s4 * 2 ^ 15 +
          s5 * 2 ^ 10 + s6 * 2 ^ 5 + s7) / 2 ^ 16 % 256 ::
        (s0 * 2 ^ 35 + s1 * 2 ^ 30 + s2 * 2 ^ 25 + s3 * 2 ^ 20 + s4 * 2 ^ 15 +
          s5 * 2 ^ 10 + s6 * 2 ^ 5 + s7) / 2 ^ 8 % 256 ::
        (s0 * 2 ^ 35 + s1 * 2 ^ 30 + s2 * 2 ^ 25 + s3 * 2 ^ 20 + s4 * 2 ^ 15 +
          s5 * 2 ^ 10 + s6 * 2 ^ 5 + s7) % 256 :: bs) := rfl

/-- Unfolding `b32Decode` on a 2-symbol tail. -/
theorem b32Decode_two (c0 c1 : Nat) :
    b32Decode [c0, c1] =
      (b32CharVal c0).bind fun s0 =>
      (b32CharVal c1).bind fun s1 =>
      if (s0 * 2 ^ 5 + s1) % 4 = 0 then some [(s0 * 2 ^ 5 + s1) / 4] else none := rfl

/-- Unfolding `b32Decode` on a 4-symbol tail. -/
theorem b32Decode_four (c0 c1 c2 c3 : Nat) :
    b32Decode [c0, c1, c2, c3] =
      (b32CharVal c0).bind fun s0 =>
      (b32CharVal c1).bind fun s1 =>
      (b32CharVal c2).bind fun s2 =>
      (b32CharVal c3).bind fun s3 =>
      if (s0 * 2 ^ 15 + s1 * 2 ^ 10 + s2 * 2 ^ 5 + s3) % 16 = 0 then
        some [(s0 * 2 ^ 15 + s1 * 2 ^ 10 + s2 * 2 ^ 5 + s3) / 2 ^ 12,
          (s0 * 2 ^ 15 + s1 * 2 ^ 10 + s2 * 2 ^ 5 + s3) / 2 ^ 4 % 256]
      else none := rfl

/-- Unfolding `b32Decode` on a 5-symbol tail. -/
theorem b32Decode_five (c0 c1 c2 c3 c4 : Nat) :
    b32Decode [c0, c1, c2, c3, c4] =
      (b32CharVal c0).bind fun s0 =>
      (b32CharVal c1).bind fun s1 =>
      (b32CharVal c2).bind fun s2 =>
      (b32CharVal c3).bind fun s3 =>
      (b32CharVal c4).bind fun s4 =>
      if (s0 * 2 ^ 20 + s1 * 2 ^ 15 + s2 * 2 ^ 10 + s3 * 2 ^ 5 + s4) % 2 = 0 then
        some [(s0 * 2 ^ 20 + s1 * 2 ^ 15 + s2 * 2 ^ 10 + s3 * 2 ^ 5 + s4) / 2 ^ 17,
          (s0 * 2 ^ 20 + s1 * 2 ^ 15 + s2 * 2 ^ 10 + s3 * 2 ^ 5 + s4) / 2 ^ 9 % 256,
          (s0 * 2 ^ 20 + s1 * 2 ^ 15 + s2 * 2 ^ 10 + s3 * 2 ^ 5 + s4) / 2 % 256]
      else none := rfl

/-- Unfolding `b32Decode` on a 7-symbol tail. -/
theorem b32Decode_seven (c0 c1 c2 c3 c4 c5 c6 : Nat) :
    b32Decode [c0, c1, c2, c3, c4, c5, c6] =
      (b32CharVal c0).bind fun s0 =>
      (b32CharVal c1).bind fun s1 =>
      (b32CharVal c2).bind fun s2 =>
      (b32CharVal c3).bind fun s3 =>
      (b32CharVal c4).bind fun s4 =>
      (b32CharVal c5).bind fun s5 =>
      (b32CharVal c6).bind fun s6 =>
      if (s0 * 2 ^ 30 + s1 * 2 ^ 25 + s2 * 2 ^ 20 + s3 * 2 ^ 15 + s4 * 2 ^ 10 +
          s5 * 2 ^ 5 + s6) % 8 = 0 then
        some [(s0 * 2 ^ 30 + s1 * 2 ^ 25 + s2 * 2 ^ 20 + s3 * 2 ^ 15 + s4 * 2 ^ 10 +
            s5 * 2 ^ 5 + s6) / 2 ^ 27,
          (s0 * 2 ^ 30 + s1 * 2 ^ 25 + s2 * 2 ^ 20 + s3 * 2 ^ 15 + s4 * 2 ^ 10 +
            s5 * 2 ^ 5 + s6) / 2 ^ 19 % 256,
          (s0 * 2 ^ 30 + s1 * 2 ^ 25 + s2 * 2 ^ 20 + s3 * 2 ^ 15 + s4 * 2 ^ 10 +
            s5 * 2 ^ 5 + s6) / 2 ^ 11 % 256,
          (s0 * 2 ^ 30 + s1 * 2 ^ 25 + s2 * 2 ^ 20 + s3 * 2 ^ 15 + s4 * 2 ^ 10 +
            s5 * 2 ^ 5 + s6) / 2 ^ 3 % 256]
      else none := rfl

/-- Induction principle following the 5-byte grouping of `b32Encode`. -/
theorem chunk5Induction (P : List Nat → Prop) (h0 : P []) (h1 : ∀ a, P [a])
    (h2 : ∀ a b, P [a, b]) (h3 : ∀ a b c, P [a, b, c])
    (h4 : ∀ a b c d, P [a, b, c, d])
    (hstep : ∀ a b c d e rest, P rest → P (a :: b :: c :: d :: e :: rest)) :
    ∀ l, P l
  | [] => h0
  | [a] => h1 a
  | [a, b] => h2 a b
  | [a, b, c] => h3 a b c
  | [a, b, c, d] => h4 a b c d
  | a :: b :: c :: d :: e :: rest =>
    hstep a b c d e rest (chunk5Induction P h0 h1 h2 h3 h4 hstep rest)

end Synkro

namespace Synkro

/-- Decoding one full lowercased-then-uppercased 8-symbol group in front of a
tail that already decodes. -/
theorem b32_decode_chunk (n : Nat) (hn : n < 2 ^ 40) (ts bs : List Nat)
    (hts : b32Decode ts = some bs) :
    b32Decode
      (asciiToUpper (asciiToLower (b32Char (n / 2 ^ 35 % 32))) ::
       asciiToUpper (asciiToLower (b32Char (n / 2 ^ 30 % 32))) ::
       asciiToUpper (asciiToLower (b32Char (n / 2 ^ 25 % 32))) ::
       asciiToUpper (asciiToLower (b32Char (n / 2 ^ 20 % 32))) ::
       asciiToUpper (asciiToLower (b32Char (n / 2 ^ 15 % 32))) ::
       asciiToUpper (asciiToLower (b32Char (n / 2 ^ 10 % 32))) ::
       asciiToUpper (asciiToLower (b32Char (n / 2 ^ 5 % 32))) ::
       asciiToUpper (asciiToLower (b32Char (n % 32))) :: ts)
      = some (n / 2 ^ 32 :: n / 2 ^ 24 % 256 :: n / 2 ^ 16 % 256 ::
          n / 2 ^ 8 % 256 :: n % 256 :: bs) := by
  have e0 := b32CharVal_roundtrip (n / 2 ^ 35 % 32) (by omega)
  have e1 := b32CharVal_roundtrip (n / 2 ^ 30 % 32) (by omega)
  have e2 := b32CharVal_roundtrip (n / 2 ^ 25 % 32) (by omega)
  have e3 := b32CharVal_roundtrip (n / 2 ^ 20 % 32) (by omega)
  have e4 := b32CharVal_roundtrip (n / 2 ^ 15 % 32) (by omega)
  have e5 := b32CharVal_roundtrip (n / 2 ^ 10 % 32) (by omega)
  have e6 := b32CharVal_roundtrip (n / 2 ^ 5 % 32) (by omega)
  have e7 := b32CharVal_roundtrip (n % 32) (by omega)
  rw [b32Decode_cons8]
  simp only [e0, e1, e2, e3, e4, e5, e6, e7, hts, Option.some_bind,
    Option.some.injEq, List.cons.injEq]
  refine ⟨by omega, by omega, by omega, by omega, by omega, trivial⟩

/-- Base32 round-trip as performed by the ticket code: encode, lowercase,
uppercase back, decode — the original bytes are recovered. -/
theorem b32_roundtrip : ∀ bs : List Nat, (∀ x ∈ bs, x < 256) →
    b32Decode (((b32Encode bs).map asciiToLower).map asciiToUpper) = some bs := by
  intro bs
  induction bs using chunk5Induction with
  | h0 => intro _; rfl
  | h1 a =>
    intro hb
    have ha : a < 256 := hb a (by simp)
    have e0 := b32CharVal_roundtrip (a / 8) (by omega)
    have e1 := b32CharVal_roundtrip (a % 8 * 4) (by omega)
    show b32Decode [asciiToUpper (asciiToLower (b32Char (a / 8))),
      asciiToUpper (asciiToLower (b32Char (a % 8 * 4)))] = some [a]
    rw [b32Decode_two]
    simp only [e0, e1, Option.some_bind]
    rw [if_pos (by omega)]
    simp only [Option.some.injEq, List.cons.injEq, and_true]
    omega
  | h2 a b =>
    intro hb
    have ha : a < 256 := hb a (by simp)
    have hbb : b < 256 := hb b (by simp)
    have e0 := b32CharVal_roundtrip ((a * 2 ^ 8 + b) / 2 ^ 11) (by omega)
    have e1 := b32CharVal_roundtrip ((a * 2 ^ 8 + b) / 2 ^ 6 % 32) (by omega)
    have e2 := b32CharVal_roundtrip ((a * 2 ^ 8 + b) / 2 % 32) (by omega)
    have e3 := b32CharVal_roundtrip ((a * 2 ^ 8 + b) % 2 * 16) (by omega)
    show b32Decode [asciiToUpper (asciiToLower (b32Char ((a * 2 ^ 8 + b) / 2 ^ 11))),
      asciiToUpper (asciiToLower (b32Char ((a * 2 ^ 8 + b) / 2 ^ 6 % 32))),
      asciiToUpper (asciiToLower (b32Char ((a * 2 ^ 8 + b) / 2 % 32))),
      asciiToUpper (asciiToLower (b32Char ((a * 2 ^ 8 + b) % 2 * 16)))] = some [a, b]
    rw [b32Decode_four]
    simp only [e0, e1, e2, e3, Option.some_bind]
    rw [if_pos (by omega)]
    simp only [Option.some.injEq, List.cons.injEq, and_true]
    omega
  | h3 a b c =>
    intro hb
    have ha : a < 256 := hb a (by simp)
    have hbb : b < 256 := hb b (by simp)
    have hc : c < 256 := hb c (by simp)
    have e0 := b32CharVal_roundtrip ((a * 2 ^ 16 + b * 2 ^ 8 + c) / 2 ^ 19) (by omega)
    have e1 := b32CharVal_roundtrip ((a * 2 ^ 16 + b * 2 ^ 8 + c) / 2 ^ 14 % 32)
      (by omega)
    have e2 := b32CharVal_roundtrip ((a * 2 ^ 16 + b * 2 ^ 8 + c) / 2 ^ 9 % 32)
      (by omega)
    have e3 := b32CharVal_roundtrip ((a * 2 ^ 16 + b * 2 ^ 8 + c) / 2 ^ 4 % 32)
      (by omega)
    have e4 := b32CharVal_roundtrip ((a * 2 ^ 16 + b * 2 ^ 8 + c) % 16 * 2) (by omega)
    show b32Decode
      [asciiToUpper (asciiToLower (b32Char ((a * 2 ^ 16 + b * 2 ^ 8 + c) / 2 ^ 19))),
       asciiToUpper (asciiToLower (b32Char ((a * 2 ^ 16 + b * 2 ^ 8 + c) / 2 ^ 14 % 32))),
       asciiToUpper (asciiToLower (b32Char ((a * 2 ^ 16 + b * 2 ^ 8 + c) / 2 ^ 9 % 32))),
       asciiToUpper (asciiToLower (b32Char ((a * 2 ^ 16 + b * 2 ^ 8 + c) / 2 ^ 4 % 32))),
       asciiToUpper (asciiToLower (b32Char ((a * 2 ^ 16 + b * 2 ^ 8 + c) % 16 * 2)))]
      = some [a, b, c]
    rw [b32Decode_five]
    simp only [e0, e1, e2, e3, e4, Option.some_bind]
    rw [if_pos (by omega)]
    simp only [Option.some.injEq, List.cons.injEq, and_true]
    omega
  | h4 a b c d =>
    intro hb
    have ha : a < 256 := hb a (by simp)
    have hbb : b < 256 := hb b (by simp)
    have hc : c < 256 := hb c (by simp)
    have hd : d < 256 := hb d (by simp)
    have e0 := b32CharVal_roundtrip
      ((a * 2 ^ 24 + b * 2 ^ 16 + c * 2 ^ 8 + d) / 2 ^ 27) (by omega)
    have e1 := b32CharVal_roundtrip
      ((a * 2 ^ 24 + b * 2 ^ 16 + c * 2 ^ 8 + d) / 2 ^ 22 % 32) (by omega)
    have e2 := b32CharVal_roundtrip
      ((a * 2 ^ 24 + b * 2 ^ 16 + c * 2 ^ 8 + d) / 2 ^ 17 % 32) (by omega)
    have e3 := b32CharVal_roundtrip
      ((a * 2 ^ 24 + b * 2 ^ 16 + c * 2 ^ 8 + d) / 2 ^ 12 % 32) (by omega)
    have e4 := b32CharVal_roundtrip
      ((a * 2 ^ 24 + b * 2 ^ 16 + c * 2 ^ 8 + d) / 2 ^ 7 % 32) (by omega)
    have e5 := b32CharVal_roundtrip
      ((a * 2 ^ 24 + b * 2 ^ 16 + c * 2 ^ 8 + d) / 2 ^ 2 % 32) (by omega)
    have e6 := b32CharVal_roundtrip
      ((a * 2 ^ 24 + b * 2 ^ 16 + c * 2 ^ 8 + d) % 4 * 8) (by omega)
    show b32Decode
      [asciiToUpper (asciiToLower (b32Char
         ((a * 2 ^ 24 + b * 2 ^ 16 + c * 2 ^ 8 + d) / 2 ^ 27))),
       asciiToUpper (asciiToLower (b32Char
         ((a * 2 ^ 24 + b * 2 ^ 16 + c * 2 ^ 8 + d) / 2 ^ 22 % 32))),
       asciiToUpper (asciiToLower (b32Char
         ((a * 2 ^ 24 + b * 2 ^ 16 + c * 2 ^ 8 + d) / 2 ^ 17 % 32))),
       asciiToUpper (asciiToLower (b32Char
         ((a * 2 ^ 24 + b * 2 ^ 16 + c * 2 ^ 8 + d) / 2 ^ 12 % 32))),
       asciiToUpper (asciiToLower (b32Char
         ((a * 2 ^ 24 + b * 2 ^ 16 + c * 2 ^ 8 + d) / 2 ^ 7 % 32))),
       asciiToUpper (asciiToLower (b32Char
         ((a * 2 ^ 24 + b * 2 ^ 16 + c * 2 ^ 8 + d) / 2 ^ 2 % 32))),
       asciiToUpper (asciiToLower (b32Char
         ((a * 2 ^ 24 + b * 2 ^ 16 + c * 2 ^ 8 + d) % 4 * 8)))]
      = some [a, b, c, d]
    rw [b32Decode_seven]
    simp only [e0, e1, e2, e3, e4, e5, e6, Option.some_bind]
    rw [if_pos (by omega)]
    simp only [Option.some.injEq, List.cons.injEq, and_true]
    omega
  | hstep a b c d e rest ih =>
    intro hb
    have ha : a < 256 := hb a (by simp)
    have hbb : b < 256 := hb b (by simp)
    have hc : c < 256 := hb c (by simp)
    have hd : d < 256 := hb d (by simp)
    have he : e < 256 := hb e (by simp)
    have hrest : b32Decode (((b32Encode rest).map asciiToLower).map asciiToUpper)
        = some rest := by
      refine ih fun x hx => hb x ?_
      simp [hx]
    have hchunk := b32_decode_chunk
      (a * 2 ^ 32 + b * 2 ^ 24 + c * 2 ^ 16 + d * 2 ^ 8 + e) (by omega)
      (((b32Encode rest).map asciiToLower).map asciiToUpper) rest hrest
    rw [b32Encode_cons5]
    simp only [List.map_cons]
    rw [hchunk]
    simp only [Option.some.injEq, List.cons.injEq]
    refine ⟨by omega, by omega, by omega, by omega, by omega, trivial⟩

end Synkro

namespace Synkro

/-! ## JSON printer-parser round-trip lemmas -/

/-- `parseDigits` consumes exactly a digit run followed by a non-digit. -/
theorem parseDigits_spec : ∀ (ds : List Nat) (acc : Nat) (rest : List Nat),
    (∀ c ∈ ds, 48 ≤ c ∧ c ≤ 57) →
    (∀ c, rest.head? = some c → ¬(48 ≤ c ∧ c ≤ 57)) →
    parseDigits (ds ++ rest) acc
      = (ds.foldl (fun a c => a * 10 + (c - 48)) acc, rest) := by
  intro ds
  induction ds with
  | nil =>
    intro acc rest _ hrest
    cases rest with
    | nil => rfl
    | cons c r =>
      simp only [List.nil_append, parseDigits, List.foldl_nil]
      rw [if_neg (hrest c rfl)]
  | cons d ds ih =>
    intro acc rest hds hrest
    simp only [List.cons_append, parseDigits, List.foldl_cons]
    rw [if_pos (hds d (by simp))]
    exact ih _ rest (fun c hc => hds c (by simp [hc])) hrest

/-- All bytes produced by `natDigitsRev` are ASCII digits. -/
theorem natDigitsRev_digits : ∀ n, ∀ c ∈ natDigitsRev n, 48 ≤ c ∧ c ≤ 57 := by
  intro n
  induction n using Nat.strong_induction_on with
  | _ n ih =>
    cases n with
    | zero => intro c hc; simp [natDigitsRev] at hc
    | succ m =>
      intro c hc
      rw [natDigitsRev] at hc
      rcases List.mem_cons.mp hc with h | h
      · subst h; omega
      · exact ih ((m + 1) / 10) (by omega) c h

/-- Folding the digit characters of `natDigitsRev n` (most significant first)
reconstructs `n`. -/
theorem natDigitsRev_val : ∀ n acc,
    ((natDigitsRev n).reverse).foldl (fun a c => a * 10 + (c - 48)) acc
      = acc * 10 ^ (natDigitsRev n).length + n := by
  intro n
  induction n using Nat.strong_induction_on with
  | _ n ih =>
    cases n with
    | zero => intro acc; simp [natDigitsRev]
    | succ m =>
      intro acc
      rw [natDigitsRev]
      simp only [List.reverse_cons, List.foldl_append, List.foldl_cons,
        List.foldl_nil, List.length_cons]
      rw [ih ((m + 1) / 10) (by omega) acc]
      rw [pow_succ, ← mul_assoc]
      have hmod := Nat.div_add_mod (m + 1) 10
      generalize acc * 10 ^ (natDigitsRev ((m + 1) / 10)).length = M
      omega

/-- Shape and parsing specification of `printNat`: it starts with a digit,
consists of digits, and `parseDigits` recovers `n` from it when the input
continues with a non-digit. -/
theorem printNat_shape (n : Nat) : ∃ c cs, printNat n = c :: cs ∧
    (48 ≤ c ∧ c ≤ 57) ∧ (∀ x ∈ cs, 48 ≤ x ∧ x ≤ 57) ∧
    ∀ rest, (∀ x, rest.head? = some x → ¬(48 ≤ x ∧ x ≤ 57)) →
      parseDigits (cs ++ rest) (c - 48) = (n, rest) := by
  by_cases h0 : n = 0
  · subst h0
    refine ⟨48, [], rfl, by omega, by simp, ?_⟩
    intro rest hrest
    have h := parseDigits_spec [] 0 rest (by simp) hrest
    simpa using h
  · rcases hrev : (natDigitsRev n).reverse with _ | ⟨c, cs⟩
    · exfalso
      have hnil : natDigitsRev n = [] := by
        have h := congrArg List.reverse hrev
        simpa using h
      cases n with
      | zero => exact h0 rfl
      | succ m =>
        rw [natDigitsRev] at hnil
        cases hnil
    · have hdig : ∀ x ∈ c :: cs, 48 ≤ x ∧ x ≤ 57 := by
        intro x hx
        have hmem : x ∈ (natDigitsRev n).reverse := by rw [hrev]; exact hx
        exact natDigitsRev_digits n x (List.mem_reverse.mp hmem)
      refine ⟨c, cs, by simp [printNat, h0, hrev], hdig c (by simp),
        fun x hx => hdig x (by simp [hx]), ?_⟩
      intro rest hrest
      rw [parseDigits_spec cs (c - 48) rest (fun x hx => hdig x (by simp [hx])) hrest]
      have hval := natDigitsRev_val n 0
      rw [hrev] at hval
      simp only [List.foldl_cons, Nat.zero_mul, Nat.zero_add] at hval
      rw [hval]

/-- Consuming an expected literal byte sequence succeeds on itself. -/
theorem expectBytes_append : ∀ es rest : List Nat,
    expectBytes es (es ++ rest) = some rest := by
  intro es
  induction es with
  | nil => intro rest; rfl
  | cons e es ih =>
    intro rest
    simp [expectBytes, ih]

/-- Hexadecimal digits round-trip through `hexDigit`/`hexVal`. -/
theorem hexVal_hexDigit : ∀ d < 16, hexVal (hexDigit d) = some d := by decide

/-- `parseStrBody` undoes the printer's escaping: the escaped body followed by
the closing quote and anything parses back to the original bytes. -/
theorem parseStrBody_print : ∀ s rest : List Nat,
    parseStrBody ((s.map escapeByte).flatten ++ 34 :: rest) = some (s, rest) := by
  intro s
  induction s with
  | nil =>
    intro rest
    simp only [List.map_nil, List.flatten_nil, List.nil_append]
    rw [parseStrBody.eq_def]
    simp
  | cons c s ih =>
    intro rest
    simp only [List.map_cons, List.flatten_cons, List.append_assoc]
    by_cases h1 : c = 34
    · subst h1
      rw [show escapeByte 34 = [92, 34] from rfl]
      simp only [List.cons_append, List.nil_append]
      rw [parseStrBody.eq_def]
      simp [ih]
    · by_cases h2 : c = 92
      · subst h2
        rw [show escapeByte 92 = [92, 92] from rfl]
        simp only [List.cons_append, List.nil_append]
        rw [parseStrBody.eq_def]
        simp [ih]
      · by_cases h3 : c = 8
        · subst h3
          rw [show escapeByte 8 = [92, 98] from rfl]
          simp only [List.cons_append, List.nil_append]
          rw [parseStrBody.eq_def]
          simp [ih]
        · by_cases h4 : c = 9
          · subst h4
            rw [show escapeByte 9 = [92, 116] from rfl]
            simp only [List.cons_append, List.nil_append]
            rw [parseStrBody.eq_def]
            simp [ih]
          · by_cases h5 : c = 10
            · subst h5
              rw [show escapeByte 10 = [92, 110] from rfl]
              simp only [List.cons_append, List.nil_append]
              rw [parseStrBody.eq_def]
              simp [ih]
            · by_cases h6 : c = 12
              · subst h6
                rw [show escapeByte 12 = [92, 102] from rfl]
                simp only [List.cons_append, List.nil_append]
                rw [parseStrBody.eq_def]
                simp [ih]
              · by_cases h7 : c = 13
                · subst h7
                  rw [show escapeByte 13 = [92, 114] from rfl]
                  simp only [List.cons_append, List.nil_append]
                  rw [parseStrBody.eq_def]
                  simp [ih]
                · by_cases h8 : c < 32
                  · have hesc : escapeByte c
                        = [92, 117, 48, 48, hexDigit (c / 16), hexDigit (c % 16)] := by
                      simp [escapeByte, h1, h2, h3, h4, h5, h6, h7, h8]
                    rw [hesc]
                    simp only [List.cons_append, List.nil_append]
                    rw [parseStrBody.eq_def]
                    have hhi := hexVal_hexDigit (c / 16) (by omega)
                    have hlo := hexVal_hexDigit (c % 16) (by omega)
                    have h48 : hexVal 48 = some 0 := rfl
                    have hv : c / 16 * 16 + c % 16 = c := by omega
                    simp [h48, hhi, hlo, ih, hv]
                  · have hesc : escapeByte c = [c] := by
                      simp [escapeByte, h1, h2, h3, h4, h5, h6, h7, h8]
                    rw [hesc]
                    simp only [List.cons_append, List.nil_append]
                    rw [parseStrBody.eq_def]
                    simp [h1, h2, h8, ih]

end Synkro

namespace Synkro

/-- Every printed JSON value is nonempty and starts with one of the value
start characters (never `]`, `}` or `,`). -/
theorem printJson_head (v : Json) : ∃ c cs, printJson v = c :: cs ∧
    (c = 110 ∨ c = 116 ∨ c = 102 ∨ c = 34 ∨ c = 91 ∨ c = 123 ∨ (48 ≤ c ∧ c ≤ 57)) := by
  cases v with
  | null => exact ⟨110, _, rfl, by omega⟩
  | bool b =>
    cases b
    · exact ⟨102, _, rfl, by omega⟩
    · exact ⟨116, _, rfl, by omega⟩
  | num n =>
    obtain ⟨c, cs, heq, hc, _, _⟩ := printNat_shape n
    exact ⟨c, cs, by simp [printJson, heq], by omega⟩
  | str s => exact ⟨34, _, rfl, by omega⟩
  | arr xs =>
    cases xs
    · exact ⟨91, _, rfl, by omega⟩
    · exact ⟨91, _, rfl, by omega⟩
  | obj kvs =>
    cases kvs
    · exact ⟨123, _, rfl, by omega⟩
    · exact ⟨123, _, rfl, by omega⟩

end Synkro

namespace Synkro

mutual

/-- The parser recovers any printed JSON value, leaving a suffix that does
not begin with a digit untouched, with any fuel above the printed length. -/
theorem parsePrint_val : ∀ (v : Json) (f : Nat) (rest : List Nat),
    (printJson v).length < f →
    (∀ x, rest.head? = some x → ¬(48 ≤ x ∧ x ≤ 57)) →
    parseVal f (printJson v ++ rest) = some (v, rest)
  | .null, f, rest, hf, _ => by
    cases f with
    | zero => omega
    | succ f => simp [printJson, parseVal, expectBytes]
  | .bool true, f, rest, hf, _ => by
    cases f with
    | zero => omega
    | succ f => simp [printJson, parseVal, expectBytes]
  | .bool false, f, rest, hf, _ => by
    cases f with
    | zero => omega
    | succ f => simp [printJson, parseVal, expectBytes]
  | .num n, f, rest, hf, hrest => by
    obtain ⟨c, cs, heq, hc, hcs, hparse⟩ := printNat_shape n
    cases f with
    | zero => omega
    | succ f =>
      have hpj : printJson (.num n) = c :: cs := by simp [printJson, heq]
      rw [hpj]
      simp only [List.cons_append]
      simp only [parseVal]
      rw [if_neg (by omega), if_neg (by omega), if_neg (by omega), if_neg (by omega),
        if_neg (by omega), if_neg (by omega), if_pos hc]
      rw [hparse rest hrest]
  | .str s, f, rest, hf, _ => by
    cases f with
    | zero => omega
    | succ f =>
      have hpj : printJson (.str s)
          = 34 :: ((s.map escapeByte).flatten ++ [34]) := by
        simp [printJson, printStr]
      rw [hpj]
      simp only [List.cons_append, List.append_assoc, List.singleton_append]
      simp only [parseVal]
      norm_num
      rw [parseStrBody_print s rest]
  | .arr .nil, f, rest, hf, _ => by
    cases f with
    | zero => omega
    | succ f => simp [printJson, parseVal]
  | .arr (.cons x xs), f, rest, hf, hrest => by
    cases f with
    | zero => omega
    | succ f =>
      obtain ⟨c1, cs1, hx, halpha⟩ := printJson_head x
      simp only [printJson, List.length_cons, List.length_append,
        List.length_singleton] at hf
      have hnd : ∀ y, (printArrTail xs ++ 93 :: rest).head? = some y →
          ¬(48 ≤ y ∧ y ≤ 57) := by
        cases xs with
        | nil => intro y hy; simp [printArrTail] at hy; omega
        | cons z zs => intro y hy; simp [printArrTail] at hy; omega
      have hrec1 := parsePrint_val x f (printArrTail xs ++ 93 :: rest)
        (by omega) hnd
      have hrec2 := parsePrint_arr xs f rest (by omega)
      simp only [printJson, List.cons_append, List.append_assoc,
        List.singleton_append]
      simp only [parseVal]
      norm_num
      rw [if_neg (by simp [hx]; omega)]
      rw [hrec1, Option.some_bind, hrec2]
      rfl
  | .obj .nil, f, rest, hf, _ => by
    cases f with
    | zero => omega
    | succ f => simp [printJson, parseVal]
  | .obj (.cons k v kvs), f, rest, hf, hrest => by
    cases f with
    | zero => omega
    | succ f =>
      simp only [printJson, printStr, List.length_cons, List.length_append,
        List.length_singleton] at hf
      have hnd : ∀ y, (printObjTail kvs ++ 125 :: rest).head? = some y →
          ¬(48 ≤ y ∧ y ≤ 57) := by
        cases kvs with
        | nil => intro y hy; simp [printObjTail] at hy; omega
        | cons k2 v2 t2 => intro y hy; simp [printObjTail] at hy; omega
      have hrec1 := parsePrint_val v f (printObjTail kvs ++ 125 :: rest)
        (by omega) hnd
      have hrec2 := parsePrint_obj kvs f rest (by omega)
      have hkey := parseStrBody_print k
        (58 :: (printJson v ++ (printObjTail kvs ++ 125 :: rest)))
      simp only [printJson, printStr, List.cons_append, List.append_assoc,
        List.singleton_append]
      simp only [parseVal]
      norm_num
      rw [hkey, Option.some_bind]
      norm_num
      rw [hrec1, Option.some_bind, hrec2]
      rfl

/-- The parser recovers any printed array tail up to and including the
closing bracket. -/
theorem parsePrint_arr : ∀ (xs : JsonList) (f : Nat) (rest : List Nat),
    (printArrTail xs).length < f →
    parseArrTail f (printArrTail xs ++ 93 :: rest) = some (xs, rest)
  | .nil, f, rest, hf => by
    cases f with
    | zero => omega
    | succ f => simp [printArrTail, parseArrTail]
  | .cons x xs, f, rest, hf => by
    cases f with
    | zero => omega
    | succ f =>
      simp only [printArrTail, List.length_cons, List.length_append] at hf
      have hnd : ∀ y, (printArrTail xs ++ 93 :: rest).head? = some y →
          ¬(48 ≤ y ∧ y ≤ 57) := by
        cases xs with
        | nil => intro y hy; simp [printArrTail] at hy; omega
        | cons z zs => intro y hy; simp [printArrTail] at hy; omega
      have hrec1 := parsePrint_val x f (printArrTail xs ++ 93 :: rest)
        (by omega) hnd
      have hrec2 := parsePrint_arr xs f rest (by omega)
      simp only [printArrTail, List.cons_append, List.append_assoc]
      simp only [parseArrTail]
      norm_num
      rw [hrec1, Option.some_bind, hrec2]
      rfl

/-- The parser recovers any printed object tail up to and including the
closing brace. -/
theorem parsePrint_obj : ∀ (kvs : JsonObj) (f : Nat) (rest : List Nat),
    (printObjTail kvs).length < f →
    parseObjTail f (printObjTail kvs ++ 125 :: rest) = some (kvs, rest)
  | .nil, f, rest, hf => by
    cases f with
    | zero => omega
    | succ f => simp [printObjTail, parseObjTail]
  | .cons k v kvs, f, rest, hf => by
    cases f with
    | zero => omega
    | succ f =>
      simp only [printObjTail, printStr, List.length_cons, List.length_append,
        List.length_singleton] at hf
      have hnd : ∀ y, (printObjTail kvs ++ 125 :: rest).head? = some y →
          ¬(48 ≤ y ∧ y ≤ 57) := by
        cases kvs with
        | nil => intro y hy; simp [printObjTail] at hy; omega
        | cons k2 v2 t2 => intro y hy; simp [printObjTail] at hy; omega
      have hrec1 := parsePrint_val v f (printObjTail kvs ++ 125 :: rest)
        (by omega) hnd
      have hrec2 := parsePrint_obj kvs f rest (by omega)
      have hkey := parseStrBody_print k
        (58 :: (printJson v ++ (printObjTail kvs ++ 125 :: rest)))
      simp only [printObjTail, printStr, List.cons_append, List.append_assoc,
        List.singleton_append]
      simp only [parseObjTail]
      norm_num
      rw [hkey, Option.some_bind]
      norm_num
      rw [hrec1, Option.some_bind, hrec2]
      rfl

end

end Synkro

namespace Synkro

/-! ## Byte-range lemmas for printed JSON -/

/-- Escaped bytes stay below 256 when the input byte does. -/
theorem escapeByte_bytes (c : Nat) (hc : c < 256) : ∀ x ∈ escapeByte c, x < 256 := by
  intro x hx
  have h1 : hexDigit (c / 16) < 256 := by unfold hexDigit; split <;> omega
  have h2 : hexDigit (c % 16) < 256 := by unfold hexDigit; split <;> omega
  unfold escapeByte at hx
  split_ifs at hx <;> simp at hx <;> omega

/-- Printed strings consist of bytes below 256 when their contents do. -/
theorem printStr_bytes (s : List Nat) (hs : ∀ c ∈ s, c < 256) :
    ∀ x ∈ printStr s, x < 256 := by
  intro x hx
  unfold printStr at hx
  rcases List.mem_cons.mp hx with h | h
  · omega
  · rcases List.mem_append.mp h with h | h
    · obtain ⟨l, hl, hxl⟩ := List.mem_flatten.mp h
      obtain ⟨c, hcmem, rfl⟩ := List.mem_map.mp hl
      exact escapeByte_bytes c (hs c hcmem) x hxl
    · simp at h
      omega

/-- Printed numbers are ASCII digits. -/
theorem printNat_bytes (n : Nat) : ∀ x ∈ printNat n, x < 256 := by
  obtain ⟨c, cs, heq, hc, hcs, _⟩ := printNat_shape n
  rw [heq]
  intro x hx
  rcases List.mem_cons.mp hx with h | h
  · omega
  · have := hcs x h
    omega

mutual
/-- All bytes of a printed well-formed JSON value are below 256. -/
theorem printJson_bytes : ∀ v : Json, jsonWf v = true → ∀ x ∈ printJson v, x < 256
  | .null, _, x, hx => by simp [printJson] at hx; omega
  | .bool true, _, x, hx => by simp [printJson] at hx; omega
  | .bool false, _, x, hx => by simp [printJson] at hx; omega
  | .num n, _, x, hx => printNat_bytes n x hx
  | .str s, hwf, x, hx => by
    refine printStr_bytes s ?_ x hx
    intro c hcmem
    have h := List.all_eq_true.mp hwf c hcmem
    simpa using h
  | .arr .nil, _, x, hx => by simp [printJson] at hx; omega
  | .arr (.cons y ys), hwf, x, hx => by
    have hw : jsonWf y = true ∧ jsonListWf ys = true := by
      have h : (jsonWf y && jsonListWf ys) = true := hwf
      simpa using h
    rw [show printJson (.arr (.cons y ys))
        = 91 :: (printJson y ++ printArrTail ys ++ [93]) from rfl] at hx
    rcases List.mem_cons.mp hx with h | h
    · omega
    · rcases List.mem_append.mp h with h | h
      · rcases List.mem_append.mp h with h | h
        · exact printJson_bytes y hw.1 x h
        · exact printArrTail_bytes ys hw.2 x h
      · simp at h
        omega
  | .obj .nil, _, x, hx => by simp [printJson] at hx; omega
  | .obj (.cons k v kvs), hwf, x, hx => by
    have hw : (k.all fun c => decide (c < 256)) = true ∧ jsonWf v = true
        ∧ jsonObjWf kvs = true := by
      have h : ((k.all fun c => decide (c < 256)) && jsonWf v && jsonObjWf kvs)
          = true := hwf
      simpa [Bool.and_assoc] using h
    rw [show printJson (.obj (.cons k v kvs))
        = 123 :: (printStr k ++ 58 :: printJson v ++ printObjTail kvs ++ [125])
        from rfl] at hx
    rcases List.mem_cons.mp hx with h | h
    · omega
    · rcases List.mem_append.mp h with h | h
      · rcases List.mem_append.mp h with h | h
        · rcases List.mem_append.mp h with h | h
          · refine printStr_bytes k ?_ x h
            intro c hcmem
            have hq := List.all_eq_true.mp hw.1 c hcmem
            simpa using hq
          · rcases List.mem_cons.mp h with h | h
            · omega
            · exact printJson_bytes v hw.2.1 x h
        · exact printObjTail_bytes kvs hw.2.2 x h
      · simp at h
        omega

/-- All bytes of a printed well-formed array tail are below 256. -/
theorem printArrTail_bytes : ∀ xs : JsonList, jsonListWf xs = true →
    ∀ x ∈ printArrTail xs, x < 256
  | .nil, _, x, hx => by simp [printArrTail] at hx
  | .cons y ys, hwf, x, hx => by
    have hw : jsonWf y = true ∧ jsonListWf ys = true := by
      have h : (jsonWf y && jsonListWf ys) = true := hwf
      simpa using h
    rw [show printArrTail (.cons y ys) = 44 :: (printJson y ++ printArrTail ys)
        from rfl] at hx
    rcases List.mem_cons.mp hx with h | h
    · omega
    · rcases List.mem_append.mp h with h | h
      · exact printJson_bytes y hw.1 x h
      · exact printArrTail_bytes ys hw.2 x h

/-- All bytes of a printed well-formed object tail are below 256. -/
theorem printObjTail_bytes : ∀ kvs : JsonObj, jsonObjWf kvs = true →
    ∀ x ∈ printObjTail kvs, x < 256
  | .nil, _, x, hx => by simp [printObjTail] at hx
  | .cons k v kvs, hwf, x, hx => by
    have hw : (k.all fun c => decide (c < 256)) = true ∧ jsonWf v = true
        ∧ jsonObjWf kvs = true := by
      have h : ((k.all fun c => decide (c < 256)) && jsonWf v && jsonObjWf kvs)
          = true := hwf
      simpa [Bool.and_assoc] using h
    rw [show printObjTail (.cons k v kvs)
        = 44 :: (printStr k ++ 58 :: printJson v ++ printObjTail kvs) from rfl] at hx
    rcases List.mem_cons.mp hx with h | h
    · omega
    · rcases List.mem_append.mp h with h | h
      · rcases List.mem_append.mp h with h | h
        · refine printStr_bytes k ?_ x h
          intro c hcmem
          have hq := List.all_eq_true.mp hw.1 c hcmem
          simpa using hq
        · rcases List.mem_cons.mp h with h | h
          · omega
          · exact printJson_bytes v hw.2.1 x h
      · exact printObjTail_bytes kvs hw.2.2 x h
end

end Synkro

namespace Synkro

/-! ## Structure-level serde round-trips -/

/-- Hex encoding of bytes decodes back to the bytes. -/
theorem hexPairsDecode_encode : ∀ bs : List Nat, (∀ b ∈ bs, b < 256) →
    hexPairsDecode (hexEncode bs) = some bs := by
  intro bs
  induction bs with
  | nil => intro _; rfl
  | cons b bs ih =>
    intro hb
    have hb0 : b < 256 := hb b (by simp)
    have hhi := hexVal_hexDigit (b / 16) (by omega)
    have hlo := hexVal_hexDigit (b % 16) (by omega)
    have hrest := ih fun x hx => hb x (by simp [hx])
    show hexPairsDecode (hexDigit (b / 16) :: hexDigit (b % 16) :: hexEncode bs) = _
    simp only [hexPairsDecode, hhi, hlo, hrest, Option.some_bind, Option.map_some,
      Option.some.injEq, List.cons.injEq]
    have hbv : b / 16 * 16 + b % 16 = b := by omega
    simp [hbv]

/-- A numeric JSON array of bytes deserializes back to them. -/
theorem jsonListToBytes_round : ∀ bs : List Nat, (∀ b ∈ bs, b < 256) →
    jsonListToBytes (listToJsonList (bs.map Json.num)) = some bs := by
  intro bs
  induction bs with
  | nil => intro _; rfl
  | cons b bs ih =>
    intro hb
    simp only [List.map_cons, listToJsonList, jsonListToBytes]
    rw [if_pos (hb b (by simp)), ih fun x hx => hb x (by simp [hx])]
    rfl

/-- A JSON array of strings deserializes back to them. -/
theorem jsonListToStrs_round : ∀ ss : List (List Nat),
    jsonListToStrs (listToJsonList (ss.map Json.str)) = some ss := by
  intro ss
  induction ss with
  | nil => rfl
  | cons s ss ih =>
    simp only [List.map_cons, listToJsonList, jsonListToStrs]
    rw [ih]
    rfl

/-- `NodeId` JSON round-trip. -/
theorem nodeIdFromJson_round (n : NodeId) (h32 : n.bytes.length = 32)
    (hb : ∀ b ∈ n.bytes, b < 256) : nodeIdFromJson (nodeIdToJson n) = some n := by
  simp [nodeIdToJson, nodeIdFromJson, hexPairsDecode_encode n.bytes hb, h32]

/-- `TopicId` JSON round-trip. -/
theorem topicIdFromJson_round (t : TopicId) (h32 : t.bytes.length = 32)
    (hb : ∀ b ∈ t.bytes, b < 256) : topicIdFromJson (topicIdToJson t) = some t := by
  simp [topicIdToJson, topicIdFromJson, jsonListToBytes_round t.bytes hb, h32]

/-- `NodeAddr` JSON round-trip. -/
theorem nodeAddrFromJson_round (a : NodeAddrM) (h32 : a.node_id.bytes.length = 32)
    (hb : ∀ b ∈ a.node_id.bytes, b < 256) :
    nodeAddrFromJson (nodeAddrToJson a) = some a := by
  obtain ⟨nid, ru, das⟩ := a
  simp only [nodeAddrToJson, nodeAddrFromJson]
  rw [if_pos (by simp)]
  rw [nodeIdFromJson_round nid h32 hb, Option.some_bind]
  cases ru with
  | none => simp [relayFromJson, jsonListToStrs_round]
  | some u => simp [relayFromJson, jsonListToStrs_round]

/-- A JSON array of `NodeAddr` objects deserializes back to them. -/
theorem jsonListToNodeAddrs_round : ∀ ns : List NodeAddrM,
    (∀ a ∈ ns, a.node_id.bytes.length = 32 ∧ ∀ b ∈ a.node_id.bytes, b < 256) →
    jsonListToNodeAddrs (listToJsonList (ns.map nodeAddrToJson)) = some ns := by
  intro ns
  induction ns with
  | nil => intro _; rfl
  | cons a ns ih =>
    intro hn
    simp only [List.map_cons, listToJsonList, jsonListToNodeAddrs]
    rw [nodeAddrFromJson_round a (hn a (by simp)).1 (hn a (by simp)).2,
      Option.some_bind, ih fun x hx => hn x (by simp [hx])]
    rfl

/-- `GossipTicket` JSON round-trip at the structure level. -/
theorem gossipTicketFromJson_round (t : GossipTicketM) (hwf : WfGossipTicket t) :
    gossipTicketFromJson (gossipTicketToJson t) = some t := by
  obtain ⟨tp, ns⟩ := t
  obtain ⟨h32, hb, hn⟩ := hwf
  simp only [gossipTicketToJson, gossipTicketFromJson]
  rw [if_pos (by simp)]
  rw [topicIdFromJson_round tp h32 hb, Option.some_bind]
  rw [jsonListToNodeAddrs_round ns fun a ha => ⟨(hn a ha).1, (hn a ha).2.1⟩]
  rfl

/-- Numeric arrays are byte-range well-formed. -/
theorem jsonListWf_nums : ∀ l : List Nat,
    jsonListWf (listToJsonList (l.map Json.num)) = true := by
  intro l
  induction l with
  | nil => rfl
  | cons b bs ih => simp [listToJsonList, jsonListWf, jsonWf, ih]

/-- String arrays of byte strings are byte-range well-formed. -/
theorem jsonListWf_strs : ∀ ss : List (List Nat), (∀ s ∈ ss, ∀ c ∈ s, c < 256) →
    jsonListWf (listToJsonList (ss.map Json.str)) = true := by
  intro ss
  induction ss with
  | nil => intro _; rfl
  | cons s ss ih =>
    intro hs
    simp only [List.map_cons, listToJsonList, jsonListWf, jsonWf, Bool.and_eq_true]
    refine ⟨List.all_eq_true.mpr fun c hc => by simp [hs s (by simp) c hc], ?_⟩
    exact ih fun x hx c hc => hs x (by simp [hx]) c hc

/-- Hex-encoded strings are byte-range well-formed. -/
theorem hexEncode_bytes (bs : List Nat) (hb : ∀ b ∈ bs, b < 256) :
    ∀ x ∈ hexEncode bs, x < 256 := by
  intro x hx
  obtain ⟨l, hl, hxl⟩ := List.mem_flatten.mp hx
  obtain ⟨b, hbm, rfl⟩ := List.mem_map.mp hl
  have hb0 : b < 256 := hb b hbm
  have h1 : hexDigit (b / 16) < 256 := by unfold hexDigit; split <;> omega
  have h2 : hexDigit (b % 16) < 256 := by unfold hexDigit; split <;> omega
  rcases List.mem_cons.mp hxl with h | h
  · omega
  · rcases List.mem_cons.mp h with h | h
    · omega
    · simp at h

/-- The JSON value of a well-formed `NodeAddr` is byte-range well-formed. -/
theorem nodeAddrJson_wf (a : NodeAddrM) (hab : ∀ b ∈ a.node_id.bytes, b < 256)
    (har : ∀ u, a.relay_url = some u → ∀ c ∈ u, c < 256)
    (had : ∀ s ∈ a.direct_addresses, ∀ c ∈ s, c < 256) :
    jsonWf (nodeAddrToJson a) = true := by
  obtain ⟨nid, ru, das⟩ := a
  have hhex : ((hexEncode nid.bytes).all fun c => decide (c < 256)) = true :=
    List.all_eq_true.mpr fun c hc => by simp [hexEncode_bytes nid.bytes hab c hc]
  have hstrs := jsonListWf_strs das had
  have hk1 : ∀ x ∈ keyNodeId, x < 256 := by decide
  have hk2 : ∀ x ∈ keyRelayUrl, x < 256 := by decide
  have hk3 : ∀ x ∈ keyDirectAddresses, x < 256 := by decide
  cases ru with
  | none =>
    show jsonObjWf _ = true
    simp only [jsonObjWf, jsonWf, nodeAddrToJson, nodeIdToJson, hhex, hstrs,
      Bool.and_eq_true, List.all_eq_true, decide_eq_true_eq]
    simp [hk1, hk2, hk3]
    exact ⟨hk1, hk2, hk3⟩
  | some u =>
    have hu : (u.all fun c => decide (c < 256)) = true :=
      List.all_eq_true.mpr fun c hc => by simp [har u rfl c hc]
    show jsonObjWf _ = true
    simp only [jsonObjWf, jsonWf, nodeAddrToJson, nodeIdToJson, hhex, hstrs, hu,
      Bool.and_eq_true, List.all_eq_true, decide_eq_true_eq]
    simp [hk1, hk2, hk3]
    exact ⟨hk1, hk2, hk3⟩

/-- Arrays of well-formed `NodeAddr` values are byte-range well-formed. -/
theorem jsonListWf_nodeAddrs : ∀ ns : List NodeAddrM,
    (∀ a ∈ ns, (∀ b ∈ a.node_id.bytes, b < 256)
      ∧ (∀ u, a.relay_url = some u → ∀ c ∈ u, c < 256)
      ∧ (∀ s ∈ a.direct_addresses, ∀ c ∈ s, c < 256)) →
    jsonListWf (listToJsonList (ns.map nodeAddrToJson)) = true := by
  intro ns
  induction ns with
  | nil => intro _; rfl
  | cons a ns ih =>
    intro hn
    simp only [List.map_cons, listToJsonList, jsonListWf, Bool.and_eq_true]
    obtain ⟨hab, har, had⟩ := hn a (by simp)
    exact ⟨nodeAddrJson_wf a hab har had, ih fun x hx => hn x (by simp [hx])⟩

/-- The JSON value of a well-formed ticket is byte-range well-formed. -/
theorem ticketJson_wf (t : GossipTicketM) (hwf : WfGossipTicket t) :
    jsonWf (gossipTicketToJson t) = true := by
  obtain ⟨tp, ns⟩ := t
  obtain ⟨h32, hb, hn⟩ := hwf
  have h1 := jsonListWf_nums tp.bytes
  have h2 := jsonListWf_nodeAddrs ns fun a ha =>
    ⟨(hn a ha).2.1, (hn a ha).2.2.1, (hn a ha).2.2.2⟩
  have hk1 : ∀ x ∈ keyTopic, x < 256 := by decide
  have hk2 : ∀ x ∈ keyNodes, x < 256 := by decide
  show jsonObjWf _ = true
  simp only [jsonObjWf, jsonWf, topicIdToJson, h1, h2, Bool.and_eq_true,
    List.all_eq_true, decide_eq_true_eq]
  simp [hk1, hk2]
  exact ⟨hk1, hk2⟩

end Synkro

namespace Synkro

/-- **C6.** Gossip ticket round-trip: for every ticket value (of the Rust
type: 32-byte identifiers, byte-valued strings), encoding — JSON bytes, then
Base32 without padding, lowercased — and parsing the resulting string back
(uppercase, Base32-decode, JSON-parse) succeeds and yields an equal
`{topic, nodes}` structure. -/
theorem gossip_ticket_roundtrip (t : GossipTicketM) (hwf : WfGossipTicket t) :
    gossipTicketFromString (gossipTicketToString t) = some t := by
  have hbytes : ∀ x ∈ gossipTicketToBytes t, x < 256 :=
    fun x hx => printJson_bytes (gossipTicketToJson t) (ticketJson_wf t hwf) x hx
  unfold gossipTicketToString gossipTicketFromString
  rw [b32_roundtrip (gossipTicketToBytes t) hbytes, Option.some_bind]
  unfold gossipTicketFromBytes gossipTicketToBytes
  have hparse := parsePrint_val (gossipTicketToJson t)
    ((printJson (gossipTicketToJson t)).length + 1) [] (by omega) (by simp)
  rw [List.append_nil] at hparse
  rw [hparse]
  exact gossipTicketFromJson_round t hwf

/-- Witness for C6: a concrete ticket (zero topic, one node with a relay URL
and one direct address) round-trips. -/
theorem gossip_ticket_roundtrip_witness :
    gossipTicketFromString (gossipTicketToString
        ⟨⟨List.replicate 32 0⟩,
         [⟨⟨List.replicate 32 1⟩, some [104, 116, 116, 112], [[49, 46, 50]]⟩]⟩)
      = some ⟨⟨List.replicate 32 0⟩,
         [⟨⟨List.replicate 32 1⟩, some [104, 116, 116, 112], [[49, 46, 50]]⟩]⟩ := by
  refine gossip_ticket_roundtrip _ ⟨by decide, by decide, ?_⟩
  intro a ha
  simp only [List.mem_singleton] at ha
  subst ha
  refine ⟨by decide, by decide, ?_, by decide⟩
  intro u hu
  injection hu with h
  subst h
  decide

/-- **C5 (evaluation at the failing input).** `create_gossip_ticket` with an
empty store persists the fresh topic's Display string under `topic-id`; a
subsequent call against a store holding exactly that persisted string value
does NOT return the same topic: the stored string fails `TopicId`
deserialization (whose JSON form is a 32-integer array, per the external
crate's derived serde), so a fresh random topic is generated and returned —
for every stored topic and every fresh draw. -/
theorem create_gossip_ticket_regenerates (me : NodeAddrM) (t1 fresh1 fresh2 : TopicId) :
    createGossipTicket true true true me none fresh1
      = .ok (⟨fresh1, [me]⟩, Json.str (topicIdDisplay fresh1))
    ∧ createGossipTicket true true true me (some (Json.str (topicIdDisplay t1))) fresh2
      = .ok (⟨fresh2, [me]⟩, Json.str (topicIdDisplay fresh2)) := by
  have hstr : topicIdFromJson (Json.str (topicIdDisplay t1)) = none := rfl
  constructor
  · simp [createGossipTicket]
  · simp [createGossipTicket, hstr]

end Synkro
